import Mathlib

/-!
Flow: verification of the API gateway and the time-label helper.

Shallow embedding of `src/apicomponent.cpp` and of
`PlayerWidget::convertSecondsToTimeString` / `PlayerWidget::search`
(`src/playerwidget.cpp`).

Conventions of the embedding.

* `QString` is a sequence of code units, modelled as `List Char`; positions and
  lengths are the C++ `int` values, modelled as `Int`. The arithmetic of the
  modelled code stays within the length of the string (or is a division), so
  no `int` operation can overflow.
* The Qt library functions the code calls (`QString::contains`, `indexOf`,
  `mid`, `split`, `section`, `number`, `QMap::operator[]`, `QDomNode`
  navigation, `QTime`) are modelled after the Qt 5 documentation and
  implementation; each model names the Qt function it stands for.
* `emit` appends to a log of emitted signals; `QNetworkAccessManager::get`
  appends the requested URL to a log of requests.
* `url.toString()` is taken as the input of `getTokensFromUrl`, and the parsed
  DOM of `reply->readAll()` as the input of `getPlaylistFromReply`.
-/

set_option autoImplicit false

namespace Flow

/-! ## QString -/

/-- A `QString`: a finite sequence of code units. -/
abbrev QString := List Char

namespace QString

/-- Scan used by `indexOf`: first position of `ch` in `l`, where the head of `l`
sits at position `i`; `-1` when `ch` does not occur. -/
def findChar (ch : Char) : List Char → Nat → Int
  | [], _ => -1
  | c :: cs, i => if c = ch then (i : Int) else findChar ch cs (i + 1)

/-- Model of `QString::indexOf(QChar ch, int from)`: position of the first occurrence of
`ch` at or after `from`, `-1` when there is none. A negative `from` counts from
the end (`from + size`, at least `0`). -/
def indexOf (s : QString) (ch : Char) (start : Int) : Int :=
  let len : Int := s.length
  let start := if start < 0 then max (start + len) 0 else start
  if start < len then findChar ch (s.drop start.toNat) start.toNat else -1

/-- Model of `QString::mid(int position, int n)` (Qt 5, `QContainerImplHelper::mid`):
`n` code units from `position`; everything from `position` on when `n` is
negative or exceeds what is available; the null (empty) string when `position`
is past the end. -/
def mid (s : QString) (position : Int) (n : Int) : QString :=
  let len : Int := s.length
  if position > len then []
  else if position < 0 then
    if n < 0 ∨ n + position ≥ len then s
    else if n + position ≤ 0 then []
    else s.take (n + position).toNat
  else if n < 0 ∨ n > len - position then s.drop position.toNat
  else (s.drop position.toNat).take n.toNat

/-- Scan used by `findString`: first position at which `sep` is a prefix of the
remaining text `l`, whose head sits at position `i`; `-1` when there is none. -/
def findStringAux (sep : QString) : List Char → Nat → Int
  | [], i => if sep = [] then (i : Int) else -1
  | c :: cs, i => if sep.isPrefixOf (c :: cs) then (i : Int) else findStringAux sep cs (i + 1)

/-- Model of `QtPrivate::findString(haystack, from, needle)` for `0 ≤ from`: position of
the first occurrence of `sep` in `s` at or after `start`, `-1` when there is
none (also when `start` is past the end). -/
def findString (s : QString) (start : Nat) (sep : QString) : Int :=
  if start > s.length then -1 else findStringAux sep (s.drop start) start

/-- Model of `QString::contains(const QString &str)`: `indexOf(str) != -1`. -/
def contains (s sub : QString) : Bool :=
  findString s 0 sub != -1

/-- The `while` loop of Qt's `splitString` with `Qt::KeepEmptyParts`: `start` is
the position after the last separator found, `acc` the fields collected so far.
Every iteration moves `start` forward, so `s.length + 1` iterations are enough;
`fuel` bounds the number of iterations. -/
def splitLoop (s sep : QString) : Nat → Nat → List QString → List QString
  | 0, start, acc => acc ++ [mid s start (-1)]
  | fuel + 1, start, acc =>
    let extra := if sep.length = 0 then 1 else 0
    let e := findString s (start + extra) sep
    if e = -1 then acc ++ [mid s start (-1)]
    else splitLoop s sep fuel (e.toNat + sep.length) (acc ++ [mid s start (e - start)])

/-- Model of `QString::split(const QString &sep, Qt::KeepEmptyParts)`. -/
def split (s sep : QString) : List QString :=
  splitLoop s sep (s.length + 1) 0 []

/-- Model of `QStringList::join(sep)`. -/
def join (sep : QString) : List QString → QString
  | [] => []
  | [x] => x
  | x :: y :: rest => x ++ sep ++ join sep (y :: rest)

/-- Model of `QString::section(const QString &sep, int start, int end)` with the default
flags: the fields `start..end` of `split sep`, joined by `sep`; negative
indices count from the last field. -/
def «section» (s sep : QString) (start : Int) (stop : Int) : QString :=
  let sections := split s sep
  let n : Int := sections.length
  let start := if start < 0 then start + n else start
  let stop := if stop < 0 then stop + n else stop
  if start ≥ n ∨ stop < 0 ∨ start > stop then []
  else join sep ((sections.drop start.toNat).take (stop - start + 1).toNat)

/-- Model of `QString::number(int n)`: decimal text of `n`. -/
def number (n : Int) : QString :=
  if n < 0 then '-' :: Nat.toDigits 10 n.natAbs else Nat.toDigits 10 n.toNat

end QString

/-! ## QTime and the time label -/

/-- Model of `QTime`: milliseconds since midnight, or the invalid time (`none`). -/
abbrev QTime := Option Nat

namespace QTime

/-- Model of `QTime::isValid(int h, int m, int s, int ms)`. -/
def isValidHMS (h m s ms : Int) : Bool :=
  decide (0 ≤ h) && decide (h < 24) && decide (0 ≤ m) && decide (m < 60) &&
  decide (0 ≤ s) && decide (s < 60) && decide (0 ≤ ms) && decide (ms < 1000)

/-- Model of `QTime::QTime(int h, int m, int s, int ms)`: the time `h:m:s.ms` when that
is a valid time, else the invalid time. -/
def mk (h m s ms : Int) : QTime :=
  if isValidHMS h m s ms then some (((h * 3600 + m * 60 + s) * 1000 + ms).toNat) else none

/-- Model of `QTime::hour()` of a valid time. -/
def hour (mds : Nat) : Nat := mds / 3600000

/-- Model of `QTime::minute()` of a valid time. -/
def minute (mds : Nat) : Nat := (mds % 3600000) / 60000

/-- Model of `QTime::second()` of a valid time. -/
def second (mds : Nat) : Nat := (mds / 1000) % 60

/-- A number with a leading zero, as the `hh`, `mm` and `ss` fields print it. -/
def zeroPad2 (n : Nat) : QString :=
  if n < 10 then '0' :: Nat.toDigits 10 n else Nat.toDigits 10 n

/-- Expansion of a format string for a valid time: `hh`/`HH`, `h`/`H`, `mm`,
`m`, `ss`, `s` print the field (two letters: with a leading zero); every other
character is copied. (The expressions `z`, `AP`, `t` and quoting of
`QTime::toString` occur in neither format string of the program.) -/
def expand (mds : Nat) : List Char → QString
  | 'h' :: 'h' :: rest => zeroPad2 (hour mds) ++ expand mds rest
  | 'H' :: 'H' :: rest => zeroPad2 (hour mds) ++ expand mds rest
  | 'h' :: rest => Nat.toDigits 10 (hour mds) ++ expand mds rest
  | 'H' :: rest => Nat.toDigits 10 (hour mds) ++ expand mds rest
  | 'm' :: 'm' :: rest => zeroPad2 (minute mds) ++ expand mds rest
  | 'm' :: rest => Nat.toDigits 10 (minute mds) ++ expand mds rest
  | 's' :: 's' :: rest => zeroPad2 (second mds) ++ expand mds rest
  | 's' :: rest => Nat.toDigits 10 (second mds) ++ expand mds rest
  | c :: rest => c :: expand mds rest
  | [] => []

/-- Model of `QTime::toString(const QString &format)`: the empty string for an invalid
time. -/
def toString (t : QTime) (format : QString) : QString :=
  match t with
  | none => []
  | some mds => expand mds format

end QTime

namespace PlayerWidget

/-- Embedding of `PlayerWidget::convertSecondsToTimeString(int seconds)`; `/` and `%` of C++
truncate toward zero; the constructor's `ms` argument takes its default `0`. -/
def convertSecondsToTimeString (seconds : Int) : QString :=
  let time := QTime.mk (Int.tdiv seconds 3600) (Int.tdiv seconds 60) (Int.tmod seconds 60) 0
  let format : QString := if seconds > 3600 then "hh:mm:ss".toList else "mm:ss".toList
  QTime.toString time format

end PlayerWidget

/-! ## QMap -/

/-- Model of `QMap<K, V>`: a finite map, kept as the list of its (key, value) pairs with
pairwise distinct keys. (Qt keeps the pairs sorted by key; no operation of the
program depends on that order.) -/
abbrev QMap (K V : Type) := List (K × V)

namespace QMap

variable {K V : Type} [DecidableEq K]

/-- Model of `QMap::contains(key)`. -/
def contains (m : QMap K V) (k : K) : Bool :=
  m.any (fun p => decide (p.1 = k))

/-- Model of `QMap::value(key)`: the stored value, or a default-constructed one. -/
def value [Inhabited V] (m : QMap K V) (k : K) : V :=
  match m.find? (fun p => decide (p.1 = k)) with
  | some p => p.2
  | none => default

/-- Model of `QMap::size()`. -/
def size (m : QMap K V) : Nat := m.length

/-- Model of `QMap::keys()`. -/
def keys (m : QMap K V) : List K := m.map Prod.fst

/-- Model of `QMap::insert(key, value)`, which is what the assignment `m[key] = value`
does: replaces the value of an existing key, adds the pair otherwise. -/
def insert : QMap K V → K → V → QMap K V
  | [], k, v => [(k, v)]
  | (k', v') :: rest, k, v => if k' = k then (k, v) :: rest else (k', v') :: insert rest k v

/-- Read of `m[key]` through the non-const `QMap::operator[]`: yields the
stored value; when the key is absent it first inserts a default-constructed
value, so the map is returned as well. -/
def index [Inhabited V] (m : QMap K V) (k : K) : V × QMap K V :=
  if contains m k then (value m k, m) else (default, insert m k default)

end QMap

/-! ## QDomDocument -/

/-- A node of a parsed XML document. -/
inductive QDomNode where
  | element (tagName : QString) (attributes : List (QString × QString))
      (childNodes : List QDomNode)
  | text (data : QString)
  | cdata (data : QString)
  | comment (data : QString)
  | processingInstruction (target : QString) (data : QString)
  | entityReference (name : QString)
  | documentType (name : QString)

/-- A `QDomNode` handle as the program holds it: the node it points to (the
head) together with that node's following siblings; `[]` is the null node. -/
abbrev NodeRef := List QDomNode

/-- A `QDomDocument` after `setContent`: the child nodes of the document node
(none when parsing failed). -/
abbrev QDomDocument := List QDomNode

namespace QDomNode

/-- Model of `QDomNode::isElement()`. -/
def isElement : QDomNode → Bool
  | element _ _ _ => true
  | _ => false

/-- Child nodes of a node, in document order; only elements have any. -/
def childNodes : QDomNode → List QDomNode
  | element _ _ cs => cs
  | _ => []

/-- Model of `QDomElement::text()`: the text and CDATA of the subtree, in document order;
comments and processing instructions are ignored. -/
def elementText : QDomNode → QString
  | element _ _ cs => go cs
  | _ => []
where
  /-- Text of a list of sibling nodes. -/
  go : List QDomNode → QString
    | [] => []
    | text d :: rest => d ++ go rest
    | cdata d :: rest => d ++ go rest
    | element t a cs :: rest => elementText (element t a cs) ++ go rest
    | _ :: rest => go rest

/-- The elements named `tag` in the subtree of a node, the node itself included,
in preorder. -/
def preorderByTagName (tag : QString) : QDomNode → List QDomNode
  | element t a cs =>
    (if t = tag then [element t a cs] else []) ++ go cs
  | _ => []
where
  /-- The elements named `tag` in the subtrees of a list of sibling nodes. -/
  go : List QDomNode → List QDomNode
    | [] => []
    | c :: rest => preorderByTagName tag c ++ go rest

end QDomNode

namespace NodeRef

/-- Model of `QDomNode::isNull()`. -/
def isNull (r : NodeRef) : Bool := r.isEmpty

/-- Model of `QDomNode::toElement()`: the node as an element, null when it is not one.
(An element handle has no use for the siblings.) -/
def toElement : NodeRef → Option QDomNode
  | n :: _ => if n.isElement then some n else none
  | [] => none

/-- Model of `QDomNode::firstChildElement()` applied to the node whose child nodes are
`children`: the first child that is an element, null when there is none. -/
def firstChildElementOf (children : List QDomNode) : NodeRef :=
  children.dropWhile (fun n => !n.isElement)

/-- Model of `QDomNode::firstChildElement()`; a null node has no children. -/
def firstChildElement : NodeRef → NodeRef
  | n :: _ => firstChildElementOf n.childNodes
  | [] => []

/-- Model of `QDomNode::nextSibling()`. -/
def nextSibling : NodeRef → NodeRef
  | _ :: rest => rest
  | [] => []

end NodeRef

/-- Model of `QDomElement::elementsByTagName(tag)`: the descendant elements named `tag`
in preorder; the empty list for a null element. -/
def elementsByTagName (e : Option QDomNode) (tag : QString) : List QDomNode :=
  match e with
  | some n => QDomNode.preorderByTagName.go tag n.childNodes
  | none => []

/-- Model of `QDomNodeList::item(i).toElement()`: the `i`-th node of the list as an
element, null when out of range. -/
def itemToElement (l : List QDomNode) (i : Nat) : Option QDomNode :=
  match l.get? i with
  | some n => if n.isElement then some n else none
  | none => none

/-- Model of `QDomElement::text()` of a possibly null element. -/
def textOf : Option QDomNode → QString
  | some n => n.elementText
  | none => []

/-! ## ApiComponent -/

/-- Keys of `ApiComponent::OAuthTokensMap`. -/
inductive OAuthToken where
  | AccessToken | ExpiresIn | UserId
  deriving DecidableEq, Repr

/-- Keys of `ApiComponent::PlaylistItem`. -/
inductive PlaylistKey where
  | Artist | Title | Duration | Url
  deriving DecidableEq, Repr

/-- The enumerators of `ApiComponent`'s genre enumeration, as
`initializeGenresMap` names them. -/
inductive Genre where
  | Rock | Pop | RapAndHipHop | EasyListening | DanceAndHouse | Instrumental | Metal
  | Alternative | Dubstep | JazzAndBlues | DrumAndBass | Trance | Chanson | Ethnic
  | AcousticAndVocal | Reggae | Classical | IndiePop | Speech | ElectropopAndDisco | Other
  deriving DecidableEq, Repr

/-- Embedding of `ApiComponent::PlaylistItem`. -/
abbrev PlaylistItem := QMap PlaylistKey QString

/-- Embedding of `ApiComponent::Playlist`. -/
abbrev Playlist := List PlaylistItem

/-- Embedding of `ApiComponent::OAuthTokensMap`. -/
abbrev OAuthTokensMap := QMap OAuthToken QString

/-- Embedding of `ApiComponent::GenresMap`: genre display name to the integer value of its
enumerator. -/
abbrev GenresMap := QMap QString Int

/-- Embedding of `ApiComponent::SearchQuery`. -/
structure SearchQuery where
  artist : Bool
  text : QString

/-- The signals of `ApiComponent`. -/
inductive Signal where
  | authorizeFinished (success : Bool) (message : QString)
  | playlistReceived (playlist : Playlist)
  deriving DecidableEq

/-- State of an `ApiComponent`: its two member maps, the signals it has emitted
and the URLs it has requested, both oldest first. -/
structure ApiComponent where
  tokens_ : OAuthTokensMap
  genres_ : GenresMap
  emitted : List Signal
  requested : List QString

namespace ApiComponent

open OAuthToken PlaylistKey

/-- The statement `emit sig`. -/
def emit (self : ApiComponent) (sig : Signal) : ApiComponent :=
  { self with emitted := self.emitted ++ [sig] }

/-- Embedding of `ApiComponent::initializeGenresMap`. The integer values of the enumerators
are declared in `apicomponent.h`; they are the parameter `gid`. -/
def initializeGenresMap (gid : Genre → Int) (self : ApiComponent) : ApiComponent :=
  let g := self.genres_
  let g := g.insert "Rock".toList (gid .Rock)
  let g := g.insert "Pop".toList (gid .Pop)
  let g := g.insert "Rap & Hip-hop".toList (gid .RapAndHipHop)
  let g := g.insert "Easy Listening".toList (gid .EasyListening)
  let g := g.insert "Dance & House".toList (gid .DanceAndHouse)
  let g := g.insert "Instrumental".toList (gid .Instrumental)
  let g := g.insert "Metal".toList (gid .Metal)
  let g := g.insert "Alternative".toList (gid .Alternative)
  let g := g.insert "Dubstep".toList (gid .Dubstep)
  let g := g.insert "Jazz & Blues".toList (gid .JazzAndBlues)
  let g := g.insert "Drum & Bass".toList (gid .DrumAndBass)
  let g := g.insert "Trance".toList (gid .Trance)
  let g := g.insert "Chanson".toList (gid .Chanson)
  let g := g.insert "Ethnic".toList (gid .Ethnic)
  let g := g.insert "Acoustic & Vocal".toList (gid .AcousticAndVocal)
  let g := g.insert "Reggae".toList (gid .Reggae)
  let g := g.insert "Classical".toList (gid .Classical)
  let g := g.insert "Indie Pop".toList (gid .IndiePop)
  let g := g.insert "Speech".toList (gid .Speech)
  let g := g.insert "Electropop & Disco".toList (gid .ElectropopAndDisco)
  let g := g.insert "Other".toList (gid .Other)
  { self with genres_ := g }

/-- Embedding of `ApiComponent::ApiComponent`: empty maps, then `initializeGenresMap`. -/
def new (gid : Genre → Int) : ApiComponent :=
  initializeGenresMap gid { tokens_ := [], genres_ := [], emitted := [], requested := [] }

/-- Embedding of `ApiComponent::setOAuthTokens`. -/
def setOAuthTokens (self : ApiComponent) (tokens : OAuthTokensMap) : ApiComponent :=
  { self with tokens_ := tokens }

/-- Embedding of `ApiComponent::tokens`. -/
def tokens (self : ApiComponent) : OAuthTokensMap := self.tokens_

/-- Embedding of `ApiComponent::genres`. -/
def genres (self : ApiComponent) : GenresMap := self.genres_

/-- Embedding of `ApiComponent::getTokensFromUrl`, on `urlString = url.toString()`. -/
def getTokensFromUrl (self : ApiComponent) (urlString : QString) : ApiComponent :=
  if QString.contains urlString "error".toList then
    self.emit (.authorizeFinished false
      (QString.«section» urlString "error_description=".toList 1 (-1)))
  else if QString.contains urlString "access_token".toList then
    let s_access : Int := QString.indexOf urlString '=' 0 + 1
    let s_expires_in : Int := QString.indexOf urlString '=' s_access + 1
    let s_userid : Int := QString.indexOf urlString '=' s_expires_in + 1
    let e_access : Int := QString.indexOf urlString '&' 0 + 1
    let e_expires_in : Int := QString.indexOf urlString '&' e_access + 1
    let e_userid : Int := -1
    let t := self.tokens_
    let t := t.insert AccessToken (QString.mid urlString s_access (e_access - s_access - 1))
    let t := t.insert ExpiresIn
      (QString.mid urlString s_expires_in (e_expires_in - s_expires_in - 1))
    let t := t.insert UserId (QString.mid urlString s_userid e_userid)
    ({ self with tokens_ := t }).emit (.authorizeFinished true [])
  else self

/-- The text of the first element named `tag` below `itemNode`:
`itemNode.toElement().elementsByTagName(tag).item(0).toElement().text()`. -/
def fieldText (itemNode : NodeRef) (tag : QString) : QString :=
  textOf (itemToElement (elementsByTagName (NodeRef.toElement itemNode) tag) 0)

/-- The `while (!itemNode.isNull())` loop of `getPlaylistFromReply`: one
iteration per node from `itemNode` along `nextSibling`. -/
def playlistLoop : NodeRef → Playlist → Playlist
  | [], playlist => playlist
  | n :: next, playlist =>
    let itemNode : NodeRef := n :: next
    let data : PlaylistItem := []
    let artist := fieldText itemNode "artist".toList
    let title := fieldText itemNode "title".toList
    let duration := fieldText itemNode "duration".toList
    let url := fieldText itemNode "url".toList
    let playlist :=
      if !artist.isEmpty && !title.isEmpty && !duration.isEmpty && !url.isEmpty then
        let data := data.insert Artist artist
        let data := data.insert Title title
        let data := data.insert Duration duration
        let data := data.insert Url url
        playlist ++ [data]
      else playlist
    playlistLoop (NodeRef.nextSibling itemNode) playlist

/-- The playlist `getPlaylistFromReply` builds from the parsed reply. -/
def playlistOfDocument (domDocument : QDomDocument) : Playlist :=
  let responseElement : NodeRef := NodeRef.firstChildElementOf domDocument
  let itemNode : NodeRef := NodeRef.firstChildElement responseElement
  playlistLoop itemNode []

/-- Embedding of `ApiComponent::getPlaylistFromReply`, on the document parsed from
`reply->readAll()`. -/
def getPlaylistFromReply (self : ApiComponent) (domDocument : QDomDocument) : ApiComponent :=
  self.emit (.playlistReceived (playlistOfDocument domDocument))

/-- Embedding of `ApiComponent::sendPlaylistRequest`: a GET of `request`. -/
def sendPlaylistRequest (self : ApiComponent) (request : QString) : ApiComponent :=
  { self with requested := self.requested ++ [request] }

/-- Embedding of `ApiComponent::requestAuthUserPlaylist`. `Q_ASSERT` aborts the program in a
build with assertions (`assertions = true`) and is no code otherwise; `none` is
the abort. -/
def requestAuthUserPlaylist (assertions : Bool) (self : ApiComponent) : Option ApiComponent :=
  if assertions && !self.tokens_.contains UserId then none
  else
    let (userId, t) := QMap.index self.tokens_ UserId
    let (accessToken, t) := QMap.index t AccessToken
    some (sendPlaylistRequest { self with tokens_ := t }
      ("https://api.vk.com/method/audio.get.xml?uid=".toList ++ userId
        ++ "&access_token=".toList ++ accessToken))

/-- Embedding of `ApiComponent::requestSuggestedPlaylist`. -/
def requestSuggestedPlaylist (self : ApiComponent) : ApiComponent :=
  let (userId, t) := QMap.index self.tokens_ UserId
  let (accessToken, t) := QMap.index t AccessToken
  sendPlaylistRequest { self with tokens_ := t }
    ("https://api.vk.com/method/audio.getRecommendations.xml?uid=".toList ++ userId
      ++ "&access_token=".toList ++ accessToken ++ "&count=500".toList)

/-- Embedding of `ApiComponent::requestPopularPlaylistByGenre`. -/
def requestPopularPlaylistByGenre (self : ApiComponent) (genre : QString) : ApiComponent :=
  let (userId, t) := QMap.index self.tokens_ UserId
  let (accessToken, t) := QMap.index t AccessToken
  let (genreId, g) := QMap.index self.genres_ genre
  sendPlaylistRequest { self with tokens_ := t, genres_ := g }
    ("https://api.vk.com/method/audio.getPopular.xml?uid=".toList ++ userId
      ++ "&access_token=".toList ++ accessToken
      ++ "&genre_id=".toList ++ QString.number genreId ++ "&count=500".toList)

/-- Embedding of `ApiComponent::requestPlaylistBySearchQuery`; `QString::number(query.artist)`
prints the `bool` as the `int` `1` or `0`. -/
def requestPlaylistBySearchQuery (self : ApiComponent) (query : SearchQuery) : ApiComponent :=
  let (userId, t) := QMap.index self.tokens_ UserId
  let (accessToken, t) := QMap.index t AccessToken
  sendPlaylistRequest { self with tokens_ := t }
    ("https://api.vk.com/method/audio.search.xml?uid=".toList ++ userId
      ++ "&access_token=".toList ++ accessToken
      ++ "&performer_only=".toList ++ QString.number (if query.artist then 1 else 0)
      ++ "&q=".toList ++ query.text ++ "&count=300".toList)

end ApiComponent

namespace PlayerWidget

/-- The push buttons `PlayerWidget::search` can be triggered from. -/
inductive QPushButton where
  | searchButton | titleButton | artistButton
  deriving DecidableEq

/-- Embedding of `PlayerWidget::search`: `sender` is `qobject_cast<QPushButton*>(QObject::sender())`
(`none` for a null pointer), `searchEditText` is `ui->searchEdit->text()`; the
changes to the selection widgets are not modelled. -/
def search (api_ : ApiComponent) (sender : Option QPushButton) (searchEditText : QString) :
    ApiComponent :=
  let query : SearchQuery :=
    { artist := if sender.isSome && decide (sender = some .artistButton) then true else false
      text := searchEditText }
  api_.requestPlaylistBySearchQuery query

end PlayerWidget

/-! ## Specification-side definitions -/

/-- The child nodes of the root element (the first element of the document), in
document order; none when the document has no root element. -/
def rootChildren : QDomDocument → List QDomNode
  | [] => []
  | .element _ _ children :: _ => children
  | _ :: rest => rootChildren rest

/-- The nodes below a node, in document order (a parent before its children, a
node before its following siblings). -/
def descendants : QDomNode → List QDomNode
  | .element _ _ children => go children
  | _ => []
where
  /-- The nodes of a list of siblings and below them, in document order. -/
  go : List QDomNode → List QDomNode
    | [] => []
    | c :: rest => c :: (descendants c ++ go rest)

/-- The character data a single node contributes to a text: its data for a text
or CDATA node, nothing for any other node. -/
def characterData : QDomNode → QString
  | .text data => data
  | .cdata data => data
  | _ => []

/-- The text of a node: the character data of the text and CDATA nodes below
it, in document order. -/
def textContent (n : QDomNode) : QString :=
  (descendants n).flatMap characterData

/-- The node is an element with tag name `tag`. -/
def isElementNamed (tag : QString) : QDomNode → Bool
  | .element t _ _ => decide (t = tag)
  | _ => false

/-- The text of the field `tag` of a child of the root: the text of the first
element named `tag` below the child, in document order; empty when there is
none. -/
def recordField (child : QDomNode) (tag : String) : QString :=
  match (descendants child).find? (isElementNamed tag.toList) with
  | some e => textContent e
  | none => []

/-- The record of a track: its four texts. -/
structure TrackRecord where
  artist : QString
  title : QString
  duration : QString
  url : QString

/-- The record of a child of the root: the texts of its `artist`, `title`,
`duration` and `url` elements. -/
def recordOf (child : QDomNode) : TrackRecord :=
  { artist := recordField child "artist"
    title := recordField child "title"
    duration := recordField child "duration"
    url := recordField child "url" }

/-- A record is complete when its four texts are all non-empty. -/
def TrackRecord.complete (r : TrackRecord) : Bool :=
  !r.artist.isEmpty && !r.title.isEmpty && !r.duration.isEmpty && !r.url.isEmpty

/-- The playlist item holding a record. -/
def TrackRecord.toItem (r : TrackRecord) : PlaylistItem :=
  [(.Artist, r.artist), (.Title, r.title), (.Duration, r.duration), (.Url, r.url)]

/-- The playlist the specification describes: the records of the root's
children in document order, the complete ones only. -/
def expectedPlaylist (domDocument : QDomDocument) : Playlist :=
  (((rootChildren domDocument).map recordOf).filter TrackRecord.complete).map TrackRecord.toItem

/-- A URL has the query parameter `name`: the name introduced by `?` or `&` and
followed by `=`. -/
def hasParam (url : QString) (name : String) : Prop :=
  ('?' :: name.toList ++ ['=']) <:+: url ∨ ('&' :: name.toList ++ ['=']) <:+: url

/-- The first occurrence of `sep` in `s` starts right after `before` and is
followed by `after`. -/
def IsFirstOccurrence (sep s before after : QString) : Prop :=
  s = before ++ sep ++ after ∧
    ∀ before' after', s = before' ++ sep ++ after' → before.length ≤ before'.length

/-- An `ApiComponent` with no tokens, no genres and nothing emitted or requested
yet, used as a concrete state. -/
def sampleApi : ApiComponent :=
  { tokens_ := [], genres_ := [], emitted := [], requested := [] }

/-- A redirect that carries an error, its description, and an `access_token`. -/
def sampleErrorUrl : QString :=
  "https://oauth.vk.com/blank.html#error=access_denied".toList
    ++ "&error_description=denied&access_token=x".toList

/-- A redirect whose error description is followed by one more parameter. -/
def sampleErrorUrlWithState : QString :=
  "https://oauth.vk.com/blank.html#error=access_denied&error_description=denied&state=7".toList

/-- A redirect in which `error_description=` occurs twice. -/
def sampleErrorUrlTwice : QString :=
  "https://oauth.vk.com/blank.html#error_description=a&error_description=b".toList

/-- A successful redirect with a query parameter before the fragment. -/
def sampleRedirectWithQuery : QString :=
  "https://oauth.vk.com/blank.html?state=1#access_token=abc&expires_in=86400&user_id=42".toList

/-- A successful redirect with one more parameter after `user_id`. -/
def sampleRedirectWithTrailer : QString :=
  "https://oauth.vk.com/blank.html#access_token=abc&expires_in=86400&user_id=42&state=1".toList

/-- A successful redirect with the parameters in the order user_id, access_token,
expires_in. -/
def sampleRedirectReordered : QString :=
  "https://oauth.vk.com/blank.html#user_id=42&access_token=abc&expires_in=86400".toList

/-- A document with one complete track followed by a track without `url`. -/
def sampleDocument : QDomDocument :=
  [ .processingInstruction "xml".toList "version=\"1.0\"".toList,
    .element "response".toList [("list".toList, "true".toList)]
      [ .element "audio".toList []
          [ .element "artist".toList [] [.text "Muse".toList],
            .element "title".toList [] [.text "Uprising".toList],
            .element "duration".toList [] [.text "305".toList],
            .element "url".toList [] [.text "http://cs1.vk.me/u1.mp3".toList] ],
        .element "audio".toList []
          [ .element "artist".toList [] [.text "Muse".toList],
            .element "title".toList [] [.text "Resistance".toList],
            .element "duration".toList [] [.text "346".toList] ] ] ]

/-- A document whose tracks have their fields in another order, nested in a
wrapper element, split over text, CDATA and child elements, mixed with comments,
and repeated; white-space text separates the tracks. -/
def sampleDocumentNested : QDomDocument :=
  [ .comment "reply".toList,
    .element "response".toList []
      [ .text "\n ".toList,
        .element "audio".toList []
          [ .element "url".toList [] [.cdata "http://cs2.vk.me/a&b.mp3".toList],
            .element "info".toList []
              [ .element "title".toList []
                  [ .text "Hello ".toList, .comment "x".toList,
                    .element "b".toList [] [.text "Qt".toList] ],
                .element "artist".toList [] [.text "First".toList] ],
            .element "artist".toList [] [.text "Second".toList],
            .element "duration".toList [] [.text "61".toList] ],
        .text "\n ".toList,
        .element "audio".toList []
          [ .element "artist".toList [] [.comment "none".toList],
            .element "title".toList [] [.text "T".toList],
            .element "duration".toList [] [.text "1".toList],
            .element "url".toList [] [.text "u".toList] ],
        .comment "end".toList,
        .element "audio".toList []
          [ .element "artist".toList [] [.text "Air".toList],
            .element "title".toList [] [.text "Sexy Boy".toList],
            .element "duration".toList [] [.text "298".toList],
            .element "url".toList [] [.text "http://cs3.vk.me/s.mp3".toList] ] ] ]

/-! ## The time label: proofs -/

theorem QTime.zeroPad2_digits : ∀ n, n < 60 →
    QTime.zeroPad2 n = [Nat.digitChar (n / 10), Nat.digitChar (n % 10)] := by
  decide

theorem tdiv_tmod_of_nonneg (a b : Int) (ha : 0 ≤ a) (hb : 0 ≤ b) :
    Int.tdiv a b = a / b ∧ Int.tmod a b = a % b :=
  ⟨Int.tdiv_eq_ediv ha hb, Int.tmod_eq_emod ha hb⟩

theorem tdiv_tmod_of_neg (a : Int) (ha : a < 0) :
    Int.tdiv a 60 = -((-a) / 60) ∧ Int.tmod a 60 = -((-a) % 60) := by
  have h1 : Int.tdiv a 60 = -((-a) / 60) := by
    have h := Int.neg_tdiv (-a) 60
    rw [neg_neg] at h
    rw [h, Int.tdiv_eq_ediv (by omega) (by omega)]
  refine ⟨h1, ?_⟩
  have h2 := Int.tmod_add_tdiv a 60
  rw [h1] at h2
  omega

theorem QTime.mk_invalid_of_out_of_range (seconds : Int) (h : seconds < 0 ∨ 3600 ≤ seconds) :
    QTime.mk (Int.tdiv seconds 3600) (Int.tdiv seconds 60) (Int.tmod seconds 60) 0 = none := by
  have hv : QTime.isValidHMS (Int.tdiv seconds 3600) (Int.tdiv seconds 60)
      (Int.tmod seconds 60) 0 = false := by
    rcases h with h | h
    · obtain ⟨hd, hm⟩ := tdiv_tmod_of_neg seconds h
      simp only [QTime.isValidHMS, hd, hm, Bool.and_eq_false_iff, decide_eq_false_iff_not]
      omega
    · obtain ⟨hd, -⟩ := tdiv_tmod_of_nonneg seconds 60 (by omega) (by omega)
      simp only [QTime.isValidHMS, hd, Bool.and_eq_false_iff, decide_eq_false_iff_not]
      omega
  simp [QTime.mk, hv]

theorem convert_in_range (seconds : Int) (h0 : 0 ≤ seconds) (h1 : seconds < 3600) :
    PlayerWidget.convertSecondsToTimeString seconds =
      [Nat.digitChar (seconds.toNat / 60 / 10), Nat.digitChar (seconds.toNat / 60 % 10), ':',
       Nat.digitChar (seconds.toNat % 60 / 10), Nat.digitChar (seconds.toNat % 60 % 10)] := by
  obtain ⟨n, rfl⟩ := Int.eq_ofNat_of_zero_le h0
  have hn : n < 3600 := by omega
  obtain ⟨hd1, -⟩ := tdiv_tmod_of_nonneg (n : Int) 3600 (by omega) (by omega)
  obtain ⟨hd2, hm2⟩ := tdiv_tmod_of_nonneg (n : Int) 60 (by omega) (by omega)
  have hv : QTime.isValidHMS (Int.tdiv n 3600) (Int.tdiv n 60) (Int.tmod n 60) 0 = true := by
    simp only [QTime.isValidHMS, hd1, hd2, hm2, Bool.and_eq_true, decide_eq_true_eq]
    omega
  have hms : ((Int.tdiv n 3600 * 3600 + Int.tdiv n 60 * 60 + Int.tmod n 60) * 1000 + 0).toNat
      = n * 1000 := by
    rw [hd1, hd2, hm2]
    omega
  have hfmt : ¬ ((n : Int) > 3600) := by omega
  have hmin : QTime.minute (n * 1000) = n / 60 := by
    unfold QTime.minute; omega
  have hsec : QTime.second (n * 1000) = n % 60 := by
    unfold QTime.second; omega
  simp only [PlayerWidget.convertSecondsToTimeString, QTime.mk, hv, hms, if_true, hfmt, if_false,
    QTime.toString, Int.toNat_ofNat]
  show QTime.zeroPad2 (QTime.minute (n * 1000)) ++
      (':' :: (QTime.zeroPad2 (QTime.second (n * 1000)) ++ [])) = _
  rw [hmin, hsec, QTime.zeroPad2_digits _ (by omega), QTime.zeroPad2_digits _ (by omega)]
  rfl

theorem convert_out_of_range (seconds : Int) (h : seconds < 0 ∨ 3600 ≤ seconds) :
    PlayerWidget.convertSecondsToTimeString seconds = [] := by
  simp [PlayerWidget.convertSecondsToTimeString, QTime.mk_invalid_of_out_of_range seconds h,
    QTime.toString]

/-- C10: `convertSecondsToTimeString` gives a non-empty text exactly for
`0 ≤ seconds < 3600`, where it is the five characters `mm:ss` (minutes
`seconds / 60` and seconds `seconds % 60`, each as two digits); for a negative
argument and for one hour or more the constructed `QTime` is invalid and the
text is empty, so the `hh:mm:ss` format never yields content. -/
theorem convertSecondsToTimeString_spec (seconds : Int) :
    (PlayerWidget.convertSecondsToTimeString seconds ≠ [] ↔
      (0 ≤ seconds ∧ seconds < 3600)) ∧
    ((0 ≤ seconds ∧ seconds < 3600) →
      PlayerWidget.convertSecondsToTimeString seconds =
        [Nat.digitChar (seconds.toNat / 60 / 10), Nat.digitChar (seconds.toNat / 60 % 10), ':',
         Nat.digitChar (seconds.toNat % 60 / 10), Nat.digitChar (seconds.toNat % 60 % 10)] ∧
      (PlayerWidget.convertSecondsToTimeString seconds).length = 5) ∧
    ((seconds < 0 ∨ 3600 ≤ seconds) →
      QTime.mk (Int.tdiv seconds 3600) (Int.tdiv seconds 60) (Int.tmod seconds 60) 0 = none ∧
      PlayerWidget.convertSecondsToTimeString seconds = []) := by
  refine ⟨?_, ?_, ?_⟩
  · constructor
    · intro hne
      by_contra hr
      exact hne (convert_out_of_range seconds (by omega))
    · rintro ⟨h0, h1⟩
      rw [convert_in_range seconds h0 h1]
      simp
  · rintro ⟨h0, h1⟩
    rw [convert_in_range seconds h0 h1]
    exact ⟨rfl, rfl⟩
  · intro h
    exact ⟨QTime.mk_invalid_of_out_of_range seconds h, convert_out_of_range seconds h⟩

/-- C10 at `seconds = 125` (text `02:05`) and at `seconds = 3600` (invalid time,
empty text). -/
theorem convertSecondsToTimeString_spec_witness :
    ((0 : Int) ≤ 125 ∧ (125 : Int) < 3600) ∧
    PlayerWidget.convertSecondsToTimeString 125 = ['0', '2', ':', '0', '5'] ∧
    ((3600 : Int) < 0 ∨ (3600 : Int) ≤ 3600) ∧
    PlayerWidget.convertSecondsToTimeString 3600 = [] :=
  ⟨by decide, ((convertSecondsToTimeString_spec 125).2.1 (by decide)).1,
   by decide, ((convertSecondsToTimeString_spec 3600).2.2 (by decide)).2⟩

/-! ## QMap: lemmas -/

section QMapLemmas

variable {K V : Type} [DecidableEq K]

theorem QMap.value_insert_self [Inhabited V] (m : QMap K V) (k : K) (v : V) :
    QMap.value (QMap.insert m k v) k = v := by
  induction m with
  | nil => simp [QMap.insert, QMap.value]
  | cons p rest ih =>
    obtain ⟨k', v'⟩ := p
    by_cases h : k' = k
    · simp [QMap.insert, h, QMap.value]
    · have ih' := ih
      simp only [QMap.value] at ih' ⊢
      simp only [QMap.insert, h, if_false, List.find?_cons, decide_False]
      exact ih'

theorem QMap.value_insert_of_ne [Inhabited V] (m : QMap K V) (k k' : K) (v : V) (h : k ≠ k') :
    QMap.value (QMap.insert m k v) k' = QMap.value m k' := by
  induction m with
  | nil =>
    simp [QMap.insert, QMap.value, h]
  | cons p rest ih =>
    obtain ⟨k₀, v₀⟩ := p
    by_cases h0 : k₀ = k
    · subst h0
      simp [QMap.insert, QMap.value, h]
    · by_cases h1 : k₀ = k'
      · subst h1
        simp [QMap.insert, h0, QMap.value]
      · have ih' := ih
        simp only [QMap.value] at ih' ⊢
        simp only [QMap.insert, h0, if_false, List.find?_cons, h1, decide_False]
        exact ih'

theorem QMap.contains_insert_self (m : QMap K V) (k : K) (v : V) :
    QMap.contains (QMap.insert m k v) k = true := by
  induction m with
  | nil => simp [QMap.insert, QMap.contains]
  | cons p rest ih =>
    obtain ⟨k', v'⟩ := p
    by_cases h : k' = k
    · simp [QMap.insert, h, QMap.contains]
    · simp only [QMap.contains] at ih
      simp [QMap.insert, h, QMap.contains, ih]

theorem QMap.contains_insert_of_contains (m : QMap K V) (k k' : K) (v : V)
    (hc : QMap.contains m k' = true) : QMap.contains (QMap.insert m k v) k' = true := by
  induction m with
  | nil => simp [QMap.contains] at hc
  | cons p rest ih =>
    obtain ⟨k₀, v₀⟩ := p
    by_cases h0 : k₀ = k
    · subst h0
      by_cases h1 : k₀ = k'
      · simp [QMap.insert, QMap.contains, h1]
      · simp only [QMap.contains, List.any_cons, h1, decide_False, Bool.false_or] at hc
        simp [QMap.insert, QMap.contains, hc]
    · by_cases h1 : k₀ = k'
      · subst h1
        simp [QMap.insert, h0, QMap.contains]
      · simp only [QMap.contains, List.any_cons, h1, decide_False, Bool.false_or] at hc
        have := ih hc
        simp only [QMap.contains] at this
        simp [QMap.insert, h0, QMap.contains, this]

theorem QMap.index_fst [Inhabited V] (m : QMap K V) (k : K) :
    (QMap.index m k).1 = QMap.value m k := by
  unfold QMap.index
  by_cases h : QMap.contains m k = true
  · simp [h]
  · simp only [h, if_false]
    simp only [QMap.contains, List.any_eq_true, not_exists, not_and, Bool.not_eq_true] at h
    have : m.find? (fun p => decide (p.1 = k)) = none := by
      rw [List.find?_eq_none]
      intro x hx
      simpa using h x hx
    simp [QMap.value, this]

theorem QMap.value_index_snd_of_ne [Inhabited V] (m : QMap K V) (k k' : K) (h : k ≠ k') :
    QMap.value (QMap.index m k).2 k' = QMap.value m k' := by
  unfold QMap.index
  by_cases hc : QMap.contains m k = true
  · simp [hc]
  · simp only [hc, if_false]
    exact QMap.value_insert_of_ne m k k' default h

end QMapLemmas

/-! ## Query construction -/

open ApiComponent OAuthToken PlaylistKey

theorem requestSuggestedPlaylist_requested (api : ApiComponent) :
    (requestSuggestedPlaylist api).requested = api.requested ++
      ["https://api.vk.com/method/audio.getRecommendations.xml?uid=".toList
        ++ QMap.value api.tokens_ UserId
        ++ "&access_token=".toList ++ QMap.value api.tokens_ AccessToken
        ++ "&count=500".toList] := by
  simp only [requestSuggestedPlaylist, sendPlaylistRequest, QMap.index_fst,
    QMap.value_index_snd_of_ne api.tokens_ UserId AccessToken (by decide)]

theorem requestPopularPlaylistByGenre_requested (api : ApiComponent) (genre : QString) :
    (requestPopularPlaylistByGenre api genre).requested = api.requested ++
      ["https://api.vk.com/method/audio.getPopular.xml?uid=".toList
        ++ QMap.value api.tokens_ UserId
        ++ "&access_token=".toList ++ QMap.value api.tokens_ AccessToken
        ++ "&genre_id=".toList ++ QString.number (QMap.value api.genres_ genre)
        ++ "&count=500".toList] := by
  simp only [requestPopularPlaylistByGenre, sendPlaylistRequest, QMap.index_fst,
    QMap.value_index_snd_of_ne api.tokens_ UserId AccessToken (by decide)]

theorem requestPlaylistBySearchQuery_requested (api : ApiComponent) (query : SearchQuery) :
    (requestPlaylistBySearchQuery api query).requested = api.requested ++
      ["https://api.vk.com/method/audio.search.xml?uid=".toList
        ++ QMap.value api.tokens_ UserId
        ++ "&access_token=".toList ++ QMap.value api.tokens_ AccessToken
        ++ "&performer_only=".toList ++ QString.number (if query.artist then 1 else 0)
        ++ "&q=".toList ++ query.text ++ "&count=300".toList] := by
  simp only [requestPlaylistBySearchQuery, sendPlaylistRequest, QMap.index_fst,
    QMap.value_index_snd_of_ne api.tokens_ UserId AccessToken (by decide)]

theorem requestAuthUserPlaylist_eq (assertions : Bool) (api : ApiComponent) :
    requestAuthUserPlaylist assertions api =
      if assertions && !QMap.contains api.tokens_ UserId then none
      else some
        { api with
          tokens_ := (QMap.index (QMap.index api.tokens_ UserId).2 AccessToken).2
          requested := api.requested ++
            ["https://api.vk.com/method/audio.get.xml?uid=".toList
              ++ QMap.value api.tokens_ UserId
              ++ "&access_token=".toList ++ QMap.value api.tokens_ AccessToken] } := by
  simp only [requestAuthUserPlaylist, sendPlaylistRequest, QMap.index_fst,
    QMap.value_index_snd_of_ne api.tokens_ UserId AccessToken (by decide)]

/-- C5: the URL each of the four request operations sends has every parameter
name of its kind, introduced by `?` or `&` and followed by `=`. Each operation
sends exactly one URL; `requestAuthUserPlaylist` sends none only when its
`Q_ASSERT` aborts (assertions compiled in and no `UserId` stored). -/
theorem query_construction_has_parameters (api : ApiComponent) (assertions : Bool)
    (genre : QString) (query : SearchQuery) :
    (match requestAuthUserPlaylist assertions api with
      | some api' => ∃ url, api'.requested = api.requested ++ [url] ∧
          hasParam url "uid" ∧ hasParam url "access_token"
      | none => assertions = true ∧ QMap.contains api.tokens_ UserId = false) ∧
    (∃ url, (requestSuggestedPlaylist api).requested = api.requested ++ [url] ∧
      hasParam url "uid" ∧ hasParam url "access_token" ∧ hasParam url "count") ∧
    (∃ url, (requestPopularPlaylistByGenre api genre).requested = api.requested ++ [url] ∧
      hasParam url "uid" ∧ hasParam url "access_token" ∧ hasParam url "genre_id" ∧
      hasParam url "count") ∧
    (∃ url, (requestPlaylistBySearchQuery api query).requested = api.requested ++ [url] ∧
      hasParam url "uid" ∧ hasParam url "access_token" ∧ hasParam url "performer_only" ∧
      hasParam url "q" ∧ hasParam url "count") := by
  refine ⟨?_, ?_, ?_, ?_⟩
  · rw [requestAuthUserPlaylist_eq]
    by_cases h : (assertions && !QMap.contains api.tokens_ UserId) = true
    · rw [if_pos h]
      simpa using h
    · rw [if_neg h]
      dsimp only
      refine ⟨_, rfl, ?_⟩
      generalize QMap.value api.tokens_ UserId = uid
      generalize QMap.value api.tokens_ AccessToken = tok
      refine ⟨Or.inl ⟨"https://api.vk.com/method/audio.get.xml".toList,
          uid ++ "&access_token=".toList ++ tok, ?_⟩,
        Or.inr ⟨"https://api.vk.com/method/audio.get.xml?uid=".toList ++ uid, tok, ?_⟩⟩
      all_goals (simp only [List.append_assoc]; rfl)
  · refine ⟨_, requestSuggestedPlaylist_requested api, ?_⟩
    generalize QMap.value api.tokens_ UserId = uid
    generalize QMap.value api.tokens_ AccessToken = tok
    refine ⟨Or.inl ⟨"https://api.vk.com/method/audio.getRecommendations.xml".toList,
        uid ++ "&access_token=".toList ++ tok ++ "&count=500".toList, ?_⟩,
      Or.inr ⟨"https://api.vk.com/method/audio.getRecommendations.xml?uid=".toList ++ uid,
        tok ++ "&count=500".toList, ?_⟩,
      Or.inr ⟨"https://api.vk.com/method/audio.getRecommendations.xml?uid=".toList ++ uid
        ++ "&access_token=".toList ++ tok, "500".toList, ?_⟩⟩
    all_goals (simp only [List.append_assoc]; rfl)
  · refine ⟨_, requestPopularPlaylistByGenre_requested api genre, ?_⟩
    generalize QMap.value api.tokens_ UserId = uid
    generalize QMap.value api.tokens_ AccessToken = tok
    generalize QString.number (QMap.value api.genres_ genre) = gen
    refine ⟨Or.inl ⟨"https://api.vk.com/method/audio.getPopular.xml".toList,
        uid ++ "&access_token=".toList ++ tok ++ "&genre_id=".toList ++ gen
          ++ "&count=500".toList, ?_⟩,
      Or.inr ⟨"https://api.vk.com/method/audio.getPopular.xml?uid=".toList ++ uid,
        tok ++ "&genre_id=".toList ++ gen ++ "&count=500".toList, ?_⟩,
      Or.inr ⟨"https://api.vk.com/method/audio.getPopular.xml?uid=".toList ++ uid
        ++ "&access_token=".toList ++ tok, gen ++ "&count=500".toList, ?_⟩,
      Or.inr ⟨"https://api.vk.com/method/audio.getPopular.xml?uid=".toList ++ uid
        ++ "&access_token=".toList ++ tok ++ "&genre_id=".toList ++ gen, "500".toList, ?_⟩⟩
    all_goals (simp only [List.append_assoc]; rfl)
  · refine ⟨_, requestPlaylistBySearchQuery_requested api query, ?_⟩
    generalize QMap.value api.tokens_ UserId = uid
    generalize QMap.value api.tokens_ AccessToken = tok
    generalize QString.number (if query.artist then 1 else 0) = flag
    generalize query.text = text
    refine ⟨Or.inl ⟨"https://api.vk.com/method/audio.search.xml".toList,
        uid ++ "&access_token=".toList ++ tok ++ "&performer_only=".toList ++ flag
          ++ "&q=".toList ++ text ++ "&count=300".toList, ?_⟩,
      Or.inr ⟨"https://api.vk.com/method/audio.search.xml?uid=".toList ++ uid,
        tok ++ "&performer_only=".toList ++ flag ++ "&q=".toList ++ text
          ++ "&count=300".toList, ?_⟩,
      Or.inr ⟨"https://api.vk.com/method/audio.search.xml?uid=".toList ++ uid
        ++ "&access_token=".toList ++ tok,
        flag ++ "&q=".toList ++ text ++ "&count=300".toList, ?_⟩,
      Or.inr ⟨"https://api.vk.com/method/audio.search.xml?uid=".toList ++ uid
        ++ "&access_token=".toList ++ tok ++ "&performer_only=".toList ++ flag,
        text ++ "&count=300".toList, ?_⟩,
      Or.inr ⟨"https://api.vk.com/method/audio.search.xml?uid=".toList ++ uid
        ++ "&access_token=".toList ++ tok ++ "&performer_only=".toList ++ flag
        ++ "&q=".toList ++ text, "300".toList, ?_⟩⟩
    all_goals (simp only [List.append_assoc]; rfl)

theorem QString.number_of_bool (b : Bool) :
    QString.number (if b then 1 else 0) = if b then ['1'] else ['0'] := by
  cases b <;> decide

/-- C9: `requestPlaylistBySearchQuery` copies the search text into the URL
verbatim, between `&q=` and `&count=300`, with no escaping, whatever characters
it holds; `PlayerWidget::search` passes the text of the search field on
unchanged; with the text `x&count=1` the URL ends in `&q=x&count=1&count=300`:
it carries a `count=1` parameter that the text brought in. -/
theorem requestPlaylistBySearchQuery_verbatim (api : ApiComponent) (t : QString) (b : Bool) :
    (requestPlaylistBySearchQuery api { artist := b, text := t }).requested = api.requested ++
      ["https://api.vk.com/method/audio.search.xml?uid=".toList
        ++ QMap.value api.tokens_ UserId
        ++ "&access_token=".toList ++ QMap.value api.tokens_ AccessToken
        ++ "&performer_only=".toList ++ (if b then "1".toList else "0".toList)
        ++ "&q=".toList ++ t ++ "&count=300".toList] ∧
    (∀ sender : Option PlayerWidget.QPushButton,
      PlayerWidget.search api sender t = requestPlaylistBySearchQuery api
        { artist := decide (sender = some .artistButton), text := t }) ∧
    (∃ url, (requestPlaylistBySearchQuery api
        { artist := b, text := "x&count=1".toList }).requested = api.requested ++ [url] ∧
      "&q=x&count=1&count=300".toList <:+ url ∧
      ('&' :: "count".toList ++ '=' :: "1&".toList) <:+: url) := by
  refine ⟨?_, ?_, ?_⟩
  · rw [requestPlaylistBySearchQuery_requested, QString.number_of_bool]
    rfl
  · intro sender
    rcases sender with _ | (_ | _ | _) <;> rfl
  · refine ⟨_, requestPlaylistBySearchQuery_requested api _, ?_⟩
    generalize QMap.value api.tokens_ UserId = uid
    generalize QMap.value api.tokens_ AccessToken = tok
    generalize QString.number (if b then 1 else 0) = flag
    refine ⟨⟨"https://api.vk.com/method/audio.search.xml?uid=".toList ++ uid
        ++ "&access_token=".toList ++ tok ++ "&performer_only=".toList ++ flag, ?_⟩,
      ⟨"https://api.vk.com/method/audio.search.xml?uid=".toList ++ uid
        ++ "&access_token=".toList ++ tok ++ "&performer_only=".toList ++ flag
        ++ "&q=x".toList, "count=300".toList, ?_⟩⟩
    all_goals (simp only [List.append_assoc]; rfl)

/-! ## The genre map -/

theorem QMap.index_snd_of_contains {K V : Type} [DecidableEq K] [Inhabited V]
    (m : QMap K V) (k : K) (h : QMap.contains m k = true) : (QMap.index m k).2 = m := by
  simp [QMap.index, h]

theorem QMap.insert_ne_self_of_not_contains {K V : Type} [DecidableEq K]
    (m : QMap K V) (k : K) (v : V) (h : QMap.contains m k = false) :
    QMap.insert m k v ≠ m := by
  intro heq
  have := QMap.contains_insert_self m k v
  rw [heq, h] at this
  exact Bool.false_ne_true this

theorem QMap.insert_nil {K V : Type} [DecidableEq K] (k : K) (v : V) :
    QMap.insert ([] : QMap K V) k v = [(k, v)] := rfl

theorem QMap.insert_cons_of_ne {K V : Type} [DecidableEq K] (k' k : K) (v' v : V)
    (rest : QMap K V) (h : k' ≠ k) :
    QMap.insert ((k', v') :: rest) k v = (k', v') :: QMap.insert rest k v := by
  simp [QMap.insert, h]

theorem QMap.contains_nil {K V : Type} [DecidableEq K] (k : K) :
    QMap.contains ([] : QMap K V) k = false := rfl

theorem QMap.contains_cons_of_ne {K V : Type} [DecidableEq K] (k' k : K) (v' : V)
    (rest : QMap K V) (h : k' ≠ k) :
    QMap.contains ((k', v') :: rest) k = QMap.contains rest k := by
  simp [QMap.contains, h]

/-- The genre map of a freshly constructed `ApiComponent`. -/
theorem ApiComponent.new_genres (gid : Genre → Int) :
    (ApiComponent.new gid).genres_ =
      [("Rock".toList, gid .Rock), ("Pop".toList, gid .Pop),
       ("Rap & Hip-hop".toList, gid .RapAndHipHop),
       ("Easy Listening".toList, gid .EasyListening),
       ("Dance & House".toList, gid .DanceAndHouse),
       ("Instrumental".toList, gid .Instrumental), ("Metal".toList, gid .Metal),
       ("Alternative".toList, gid .Alternative), ("Dubstep".toList, gid .Dubstep),
       ("Jazz & Blues".toList, gid .JazzAndBlues), ("Drum & Bass".toList, gid .DrumAndBass),
       ("Trance".toList, gid .Trance), ("Chanson".toList, gid .Chanson),
       ("Ethnic".toList, gid .Ethnic), ("Acoustic & Vocal".toList, gid .AcousticAndVocal),
       ("Reggae".toList, gid .Reggae), ("Classical".toList, gid .Classical),
       ("Indie Pop".toList, gid .IndiePop), ("Speech".toList, gid .Speech),
       ("Electropop & Disco".toList, gid .ElectropopAndDisco),
       ("Other".toList, gid .Other)] := by
  unfold ApiComponent.new initializeGenresMap
  simp (disch := decide) only [QMap.insert_nil, QMap.insert_cons_of_ne]

theorem ApiComponent.new_genres_not_contains_unknown (gid : Genre → Int) :
    QMap.contains (ApiComponent.new gid).genres_ "Unknown".toList = false := by
  rw [ApiComponent.new_genres]
  simp (disch := decide) only [QMap.contains_nil, QMap.contains_cons_of_ne]

theorem requestPopularPlaylistByGenre_genres (api : ApiComponent) (genre : QString) :
    (requestPopularPlaylistByGenre api genre).genres_ = (QMap.index api.genres_ genre).2 :=
  rfl

/-- No other operation of `ApiComponent` writes to the genre map. -/
theorem genres_unchanged_by_other_operations (api : ApiComponent) :
    (∀ tokens, (setOAuthTokens api tokens).genres_ = api.genres_) ∧
    (∀ urlString, (getTokensFromUrl api urlString).genres_ = api.genres_) ∧
    (∀ domDocument, (getPlaylistFromReply api domDocument).genres_ = api.genres_) ∧
    (∀ request, (sendPlaylistRequest api request).genres_ = api.genres_) ∧
    (∀ assertions api', requestAuthUserPlaylist assertions api = some api' →
      api'.genres_ = api.genres_) ∧
    (requestSuggestedPlaylist api).genres_ = api.genres_ ∧
    (∀ query, (requestPlaylistBySearchQuery api query).genres_ = api.genres_) := by
  refine ⟨fun _ => rfl, ?_, fun _ => rfl, fun _ => rfl, ?_, rfl, fun _ => rfl⟩
  · intro urlString
    unfold getTokensFromUrl
    split
    · rfl
    · split <;> rfl
  · intro assertions api' h
    rw [requestAuthUserPlaylist_eq] at h
    split at h
    · exact absurd h (by simp)
    · rw [← Option.some.inj h]

/-- C6 (fails on the code): a freshly constructed `ApiComponent` holds exactly
the 21 genre names, and `requestPopularPlaylistByGenre` leaves the genre map as
it was exactly when the genre is a key of the map; called with `Unknown`, which
is no key, it adds the pair (`Unknown`, 0) to the map, which then has 22
entries, and requests `genre_id=0`. -/
theorem requestPopularPlaylistByGenre_mutates_genres (gid : Genre → Int) :
    QMap.keys (ApiComponent.new gid).genres_ =
      ["Rock".toList, "Pop".toList, "Rap & Hip-hop".toList, "Easy Listening".toList,
       "Dance & House".toList, "Instrumental".toList, "Metal".toList, "Alternative".toList,
       "Dubstep".toList, "Jazz & Blues".toList, "Drum & Bass".toList, "Trance".toList,
       "Chanson".toList, "Ethnic".toList, "Acoustic & Vocal".toList, "Reggae".toList,
       "Classical".toList, "Indie Pop".toList, "Speech".toList, "Electropop & Disco".toList,
       "Other".toList] ∧
    QMap.size (ApiComponent.new gid).genres_ = 21 ∧
    (∀ (api : ApiComponent) (genre : QString),
      (requestPopularPlaylistByGenre api genre).genres_ = api.genres_ ↔
        QMap.contains api.genres_ genre = true) ∧
    QMap.contains (ApiComponent.new gid).genres_ "Unknown".toList = false ∧
    (requestPopularPlaylistByGenre (ApiComponent.new gid) "Unknown".toList).genres_ =
      (ApiComponent.new gid).genres_ ++ [("Unknown".toList, 0)] ∧
    QMap.size (requestPopularPlaylistByGenre (ApiComponent.new gid) "Unknown".toList).genres_
      = 22 ∧
    (requestPopularPlaylistByGenre (ApiComponent.new gid) "Unknown".toList).genres_ ≠
      (ApiComponent.new gid).genres_ ∧
    (requestPopularPlaylistByGenre (ApiComponent.new gid) "Unknown".toList).requested =
      ["https://api.vk.com/method/audio.getPopular.xml?uid=&access_token=".toList
        ++ "&genre_id=0&count=500".toList] := by
  have hiff : ∀ (api : ApiComponent) (genre : QString),
      (requestPopularPlaylistByGenre api genre).genres_ = api.genres_ ↔
        QMap.contains api.genres_ genre = true := by
    intro api genre
    rw [requestPopularPlaylistByGenre_genres]
    constructor
    · intro h
      by_contra hc
      have hc' : QMap.contains api.genres_ genre = false := by simpa using hc
      simp only [QMap.index, hc', Bool.false_eq_true, if_false] at h
      exact QMap.insert_ne_self_of_not_contains _ _ _ hc' h
    · exact QMap.index_snd_of_contains _ _
  have hnot := ApiComponent.new_genres_not_contains_unknown gid
  have hafter : (requestPopularPlaylistByGenre (ApiComponent.new gid) "Unknown".toList).genres_
      = (ApiComponent.new gid).genres_ ++ [("Unknown".toList, 0)] := by
    rw [requestPopularPlaylistByGenre_genres, QMap.index, hnot, ApiComponent.new_genres]
    simp (disch := decide) only [QMap.insert_nil, QMap.insert_cons_of_ne]
    rfl
  have hvalue : QMap.value (ApiComponent.new gid).genres_ "Unknown".toList = 0 := by
    rw [← QMap.index_fst, QMap.index, hnot]
    rfl
  refine ⟨?_, ?_, hiff, hnot, hafter, ?_, ?_, ?_⟩
  · rw [ApiComponent.new_genres]; rfl
  · rw [ApiComponent.new_genres]; rfl
  · rw [hafter, ApiComponent.new_genres]; rfl
  · intro h
    rw [(hiff _ _).mp h] at hnot
    exact Bool.noConfusion hnot
  · rw [requestPopularPlaylistByGenre_requested, hvalue]
    rfl

/-! ## Playlist parsing -/

theorem fieldText_cons (n : QDomNode) (next : List QDomNode) (tag : QString) :
    fieldText (n :: next) tag = fieldText [n] tag := rfl

theorem fieldText_of_not_isElement (n : QDomNode) (tag : QString) (h : n.isElement = false) :
    fieldText [n] tag = [] := by
  simp [fieldText, NodeRef.toElement, h, elementsByTagName, itemToElement, textOf]

mutual

theorem elementText_eq_textContent : ∀ n : QDomNode, n.elementText = textContent n
  | .element _ _ cs => by
    rw [QDomNode.elementText, textContent, descendants]
    exact elementText_go_eq cs
  | .text _ => rfl
  | .cdata _ => rfl
  | .comment _ => rfl
  | .processingInstruction _ _ => rfl
  | .entityReference _ => rfl
  | .documentType _ => rfl

theorem elementText_go_eq : ∀ cs : List QDomNode,
    QDomNode.elementText.go cs = (descendants.go cs).flatMap characterData
  | [] => rfl
  | .element t a cs :: rest => by
    have h1 := elementText_eq_textContent (.element t a cs)
    have h2 := elementText_go_eq rest
    rw [QDomNode.elementText.go, descendants.go, h1, h2, textContent]
    simp [characterData]
  | .text d :: rest => by
    have h2 := elementText_go_eq rest
    rw [QDomNode.elementText.go, descendants.go, h2]
    simp [characterData, descendants]
  | .cdata d :: rest => by
    have h2 := elementText_go_eq rest
    rw [QDomNode.elementText.go, descendants.go, h2]
    simp [characterData, descendants]
  | .comment d :: rest => by
    have h2 := elementText_go_eq rest
    simp [QDomNode.elementText.go, descendants.go, h2, characterData, descendants]
  | .processingInstruction x d :: rest => by
    have h2 := elementText_go_eq rest
    simp [QDomNode.elementText.go, descendants.go, h2, characterData, descendants]
  | .entityReference d :: rest => by
    have h2 := elementText_go_eq rest
    simp [QDomNode.elementText.go, descendants.go, h2, characterData, descendants]
  | .documentType d :: rest => by
    have h2 := elementText_go_eq rest
    simp [QDomNode.elementText.go, descendants.go, h2, characterData, descendants]

end

mutual

theorem preorderByTagName_eq (tag : QString) : ∀ n : QDomNode,
    QDomNode.preorderByTagName tag n = (n :: descendants n).filter (isElementNamed tag)
  | .element t a cs => by
    rw [QDomNode.preorderByTagName, descendants, preorderByTagName_go_eq tag cs]
    by_cases h : t = tag <;> simp [List.filter_cons, isElementNamed, h]
  | .text _ => rfl
  | .cdata _ => rfl
  | .comment _ => rfl
  | .processingInstruction _ _ => rfl
  | .entityReference _ => rfl
  | .documentType _ => rfl

theorem preorderByTagName_go_eq (tag : QString) : ∀ cs : List QDomNode,
    QDomNode.preorderByTagName.go tag cs = (descendants.go cs).filter (isElementNamed tag)
  | [] => rfl
  | c :: rest => by
    rw [QDomNode.preorderByTagName.go, descendants.go, preorderByTagName_eq tag c,
      preorderByTagName_go_eq tag rest]
    by_cases h : isElementNamed tag c = true <;> simp [List.filter_cons, List.filter_append, h]

end

theorem isElement_of_isElementNamed (tag : QString) (n : QDomNode)
    (h : isElementNamed tag n = true) : n.isElement = true := by
  cases n <;> simp_all [isElementNamed, QDomNode.isElement]

theorem get?_zero_filter_eq_find? (p : QDomNode → Bool) (l : List QDomNode) :
    (l.filter p).get? 0 = l.find? p := by
  induction l with
  | nil => rfl
  | cons x xs ih =>
    by_cases h : p x = true
    · simp [List.filter_cons, List.find?_cons, h]
    · simp only [List.filter_cons, List.find?_cons, h, if_false]
      simpa using ih

/-- The text the code extracts for a field is the text of the first element
with that name below the node. -/
theorem fieldText_eq_recordField (n : QDomNode) (tag : String) :
    fieldText [n] tag.toList = recordField n tag := by
  by_cases hel : n.isElement = true
  · have hkids : descendants.go n.childNodes = descendants n := by
      cases n <;> simp_all [QDomNode.isElement, QDomNode.childNodes, descendants]
    simp only [fieldText, NodeRef.toElement, hel, if_true, elementsByTagName, itemToElement,
      recordField, preorderByTagName_go_eq, hkids, get?_zero_filter_eq_find?]
    cases hfind : (descendants n).find? (isElementNamed tag.toList) with
    | none => rfl
    | some e =>
      have hnamed := List.find?_some hfind
      simp only [isElement_of_isElementNamed _ e hnamed, if_true, textOf]
      exact elementText_eq_textContent e
  · have hel' : n.isElement = false := by simpa using hel
    rw [fieldText_of_not_isElement n _ hel']
    have hnone : descendants n = [] := by
      cases n <;> simp_all [QDomNode.isElement, descendants]
    simp [recordField, hnone]

theorem recordOf_eq_fieldText (n : QDomNode) :
    recordOf n =
      { artist := fieldText [n] "artist".toList
        title := fieldText [n] "title".toList
        duration := fieldText [n] "duration".toList
        url := fieldText [n] "url".toList } := by
  simp only [recordOf, fieldText_eq_recordField]

theorem recordOf_incomplete_of_not_isElement (n : QDomNode) (h : n.isElement = false) :
    (recordOf n).complete = false := by
  simp [recordOf_eq_fieldText, TrackRecord.complete, fieldText_of_not_isElement n _ h]

/-- The records kept from a list of sibling nodes. -/
theorem playlistLoop_eq (l : List QDomNode) (playlist : Playlist) :
    playlistLoop l playlist =
      playlist ++ ((l.map recordOf).filter TrackRecord.complete).map TrackRecord.toItem := by
  induction l generalizing playlist with
  | nil => simp [playlistLoop]
  | cons n next ih =>
    unfold playlistLoop
    simp only [NodeRef.nextSibling, fieldText_cons n next]
    rw [ih]
    by_cases hc : (recordOf n).complete = true
    · have hc' := hc
      simp only [TrackRecord.complete, recordOf_eq_fieldText] at hc'
      rw [if_pos hc']
      simp only [List.map_cons, List.filter_cons, hc, if_true, List.append_assoc]
      rw [recordOf_eq_fieldText]
      rfl
    · have hc' := hc
      simp only [TrackRecord.complete, recordOf_eq_fieldText] at hc'
      rw [if_neg hc']
      simp only [List.map_cons, List.filter_cons, hc, if_false]
      rfl

theorem playlistLoop_firstChildElementOf (children : List QDomNode) :
    playlistLoop (NodeRef.firstChildElementOf children) [] = playlistLoop children [] := by
  induction children with
  | nil => rfl
  | cons n rest ih =>
    by_cases h : n.isElement = true
    · simp [NodeRef.firstChildElementOf, List.dropWhile, h]
    · have h' : n.isElement = false := by simpa using h
      have hdrop : NodeRef.firstChildElementOf (n :: rest) = NodeRef.firstChildElementOf rest := by
        simp [NodeRef.firstChildElementOf, List.dropWhile, h']
      rw [hdrop, ih, playlistLoop_eq, playlistLoop_eq (n :: rest)]
      simp [List.filter_cons, recordOf_incomplete_of_not_isElement n h']

theorem firstChildElement_firstChildElementOf (domDocument : QDomDocument) :
    NodeRef.firstChildElement (NodeRef.firstChildElementOf domDocument) =
      NodeRef.firstChildElementOf (rootChildren domDocument) := by
  induction domDocument with
  | nil => rfl
  | cons n rest ih =>
    by_cases h : n.isElement = true
    · have hroot : rootChildren (n :: rest) = n.childNodes := by
        cases n <;> simp_all [QDomNode.isElement, rootChildren, QDomNode.childNodes]
      simp [NodeRef.firstChildElementOf, List.dropWhile, h, NodeRef.firstChildElement, hroot]
    · have h' : n.isElement = false := by simpa using h
      have hdrop : NodeRef.firstChildElementOf (n :: rest) = NodeRef.firstChildElementOf rest := by
        simp [NodeRef.firstChildElementOf, List.dropWhile, h']
      have hroot : rootChildren (n :: rest) = rootChildren rest := by
        cases n <;> simp_all [QDomNode.isElement, rootChildren]
      rw [hdrop, hroot, ih]

/-- The playlist built by the code is the one the specification describes. -/
theorem playlistOfDocument_eq (domDocument : QDomDocument) :
    playlistOfDocument domDocument = expectedPlaylist domDocument := by
  unfold playlistOfDocument expectedPlaylist
  simp only []
  rw [firstChildElement_firstChildElementOf, playlistLoop_firstChildElementOf, playlistLoop_eq]
  rfl

theorem sublist_filter_map_complete (l : List QDomNode) :
    List.Sublist (((l.map recordOf).filter TrackRecord.complete).map TrackRecord.toItem)
      (l.map (fun c => (recordOf c).toItem)) := by
  have h1 : List.Sublist ((l.map recordOf).filter TrackRecord.complete) (l.map recordOf) :=
    List.filter_sublist _
  have h2 := h1.map TrackRecord.toItem
  simpa [List.map_map] using h2

/-- The playlist of a document with one track whose four fields are plain
texts. -/
theorem playlistOfDocument_plain_track (artist title duration url : QString)
    (h1 : artist ≠ []) (h2 : title ≠ []) (h3 : duration ≠ []) (h4 : url ≠ []) :
    playlistOfDocument
      [ .element "response".toList []
          [ .element "audio".toList []
              [ .element "artist".toList [] [.text artist],
                .element "title".toList [] [.text title],
                .element "duration".toList [] [.text duration],
                .element "url".toList [] [.text url] ] ] ] =
      [[(Artist, artist), (Title, title), (Duration, duration), (Url, url)]] := by
  rw [playlistOfDocument_eq]
  have f1 : recordField (.element "audio".toList []
      [ .element "artist".toList [] [.text artist], .element "title".toList [] [.text title],
        .element "duration".toList [] [.text duration], .element "url".toList [] [.text url] ])
      "artist" = artist ++ [] := rfl
  have f2 : recordField (.element "audio".toList []
      [ .element "artist".toList [] [.text artist], .element "title".toList [] [.text title],
        .element "duration".toList [] [.text duration], .element "url".toList [] [.text url] ])
      "title" = title ++ [] := rfl
  have f3 : recordField (.element "audio".toList []
      [ .element "artist".toList [] [.text artist], .element "title".toList [] [.text title],
        .element "duration".toList [] [.text duration], .element "url".toList [] [.text url] ])
      "duration" = duration ++ [] := rfl
  have f4 : recordField (.element "audio".toList []
      [ .element "artist".toList [] [.text artist], .element "title".toList [] [.text title],
        .element "duration".toList [] [.text duration], .element "url".toList [] [.text url] ])
      "url" = url ++ [] := rfl
  simp only [expectedPlaylist, rootChildren, List.map_cons, List.map_nil, recordOf, f1, f2, f3,
    f4, List.append_nil]
  have hc : TrackRecord.complete
      { artist := artist, title := title, duration := duration, url := url } = true := by
    simp [TrackRecord.complete, h1, h2, h3, h4]
  simp only [List.filter_cons, hc, if_true, List.filter_nil, List.map_cons, List.map_nil,
    TrackRecord.toItem]

/-- C3: the playlist `getPlaylistFromReply` emits is the list of the records of
the root element's children, in document order, restricted to the children
whose four texts are all non-empty, where the record of a child holds, for each
of `artist`, `title`, `duration` and `url`, the text of the first element of
that name below the child: every complete child appears, the kept records keep
the input order, the length is the number of complete children. A track whose
fields are the plain texts `a`, `t`, `d`, `u` gives the item with exactly these
four values; one complete track followed by a track without `url` gives one
item, the first track's; a document without root element or with a root without
children gives none. -/
theorem getPlaylistFromReply_playlist (api : ApiComponent) (domDocument : QDomDocument) :
    (getPlaylistFromReply api domDocument).emitted =
      api.emitted ++ [.playlistReceived (playlistOfDocument domDocument)] ∧
    playlistOfDocument domDocument =
      (((rootChildren domDocument).map recordOf).filter TrackRecord.complete).map
        TrackRecord.toItem ∧
    (∀ child ∈ rootChildren domDocument, (recordOf child).complete = true →
      (recordOf child).toItem ∈ playlistOfDocument domDocument) ∧
    List.Sublist (playlistOfDocument domDocument)
      ((rootChildren domDocument).map (fun c => (recordOf c).toItem)) ∧
    (playlistOfDocument domDocument).length =
      (rootChildren domDocument).countP (fun c => (recordOf c).complete) ∧
    (playlistOfDocument sampleDocument).length = 1 ∧
    playlistOfDocument [] = [] ∧
    playlistOfDocument [.comment "no root".toList] = [] ∧
    playlistOfDocument [.element "response".toList [] []] = [] ∧
    playlistOfDocument sampleDocument =
      [[(Artist, "Muse".toList), (Title, "Uprising".toList), (Duration, "305".toList),
        (Url, "http://cs1.vk.me/u1.mp3".toList)]] ∧
    playlistOfDocument sampleDocumentNested =
      [[(Artist, "First".toList), (Title, "Hello Qt".toList), (Duration, "61".toList),
        (Url, "http://cs2.vk.me/a&b.mp3".toList)],
       [(Artist, "Air".toList), (Title, "Sexy Boy".toList), (Duration, "298".toList),
        (Url, "http://cs3.vk.me/s.mp3".toList)]] ∧
    (∀ artist title duration url : QString,
      artist ≠ [] → title ≠ [] → duration ≠ [] → url ≠ [] →
      playlistOfDocument
        [ .element "response".toList []
            [ .element "audio".toList []
                [ .element "artist".toList [] [.text artist],
                  .element "title".toList [] [.text title],
                  .element "duration".toList [] [.text duration],
                  .element "url".toList [] [.text url] ] ] ] =
        [[(Artist, artist), (Title, title), (Duration, duration), (Url, url)]]) := by
  refine ⟨rfl, playlistOfDocument_eq domDocument, ?_, ?_, ?_, by decide, by decide, by decide,
    by decide, by decide, by decide, playlistOfDocument_plain_track⟩
  · intro child hmem hc
    rw [playlistOfDocument_eq]
    exact List.mem_map_of_mem _ (List.mem_filter.mpr ⟨List.mem_map_of_mem _ hmem, hc⟩)
  · rw [playlistOfDocument_eq]
    exact sublist_filter_map_complete _
  · rw [playlistOfDocument_eq, expectedPlaylist, List.length_map, List.countP_eq_length_filter,
      List.filter_map, List.length_map]
    rfl

/-- C3 at the sample document: its first track is complete, its record holds
the four texts of the track, and its item is in the playlist; and at a track
with the plain texts `Air`, `Sexy Boy`, `298` and an address. -/
theorem getPlaylistFromReply_playlist_witness :
    (∃ child ∈ rootChildren sampleDocument, (recordOf child).complete = true ∧
      (recordOf child).toItem =
        [(Artist, "Muse".toList), (Title, "Uprising".toList), (Duration, "305".toList),
         (Url, "http://cs1.vk.me/u1.mp3".toList)] ∧
      (recordOf child).toItem ∈ playlistOfDocument sampleDocument) ∧
    playlistOfDocument
      [ .element "response".toList []
          [ .element "audio".toList []
              [ .element "artist".toList [] [.text "Air".toList],
                .element "title".toList [] [.text "Sexy Boy".toList],
                .element "duration".toList [] [.text "298".toList],
                .element "url".toList [] [.text "http://cs3.vk.me/s.mp3".toList] ] ] ] =
      [[(Artist, "Air".toList), (Title, "Sexy Boy".toList), (Duration, "298".toList),
        (Url, "http://cs3.vk.me/s.mp3".toList)]] :=
  ⟨⟨.element "audio".toList []
      [ .element "artist".toList [] [.text "Muse".toList],
        .element "title".toList [] [.text "Uprising".toList],
        .element "duration".toList [] [.text "305".toList],
        .element "url".toList [] [.text "http://cs1.vk.me/u1.mp3".toList] ],
    by simp [rootChildren, sampleDocument],
    by decide, by decide,
    (getPlaylistFromReply_playlist sampleApi sampleDocument).2.2.1 _
      (by simp [rootChildren, sampleDocument]) (by decide)⟩,
   (getPlaylistFromReply_playlist sampleApi sampleDocument).2.2.2.2.2.2.2.2.2.2.2
     "Air".toList "Sexy Boy".toList "298".toList "http://cs3.vk.me/s.mp3".toList
     (by decide) (by decide) (by decide) (by decide)⟩

/-- C4: every item of the playlist built by `getPlaylistFromReply` has the four
keys `Artist`, `Title`, `Duration` and `Url`, each with a non-empty value. -/
theorem playlist_items_complete (api : ApiComponent) (domDocument : QDomDocument) :
    ∃ playlist, (getPlaylistFromReply api domDocument).emitted =
        api.emitted ++ [.playlistReceived playlist] ∧
      ∀ item ∈ playlist, ∀ key : PlaylistKey,
        QMap.contains item key = true ∧ QMap.value item key ≠ [] := by
  refine ⟨playlistOfDocument domDocument, rfl, ?_⟩
  intro item hitem key
  rw [playlistOfDocument_eq, expectedPlaylist, List.mem_map] at hitem
  obtain ⟨r, hr, rfl⟩ := hitem
  have hc := (List.mem_filter.mp hr).2
  simp only [TrackRecord.complete, Bool.and_eq_true, Bool.not_eq_true', List.isEmpty_eq_false]
    at hc
  obtain ⟨⟨⟨h1, h2⟩, h3⟩, h4⟩ := hc
  cases key
  · exact ⟨rfl, by simpa [QMap.value, TrackRecord.toItem] using h1⟩
  · exact ⟨rfl, by simpa [QMap.value, TrackRecord.toItem] using h2⟩
  · exact ⟨rfl, by simpa [QMap.value, TrackRecord.toItem] using h3⟩
  · exact ⟨rfl, by simpa [QMap.value, TrackRecord.toItem] using h4⟩

/-- C4 at the sample document: the playlist has one item, and that item has the
four keys with non-empty values. -/
theorem playlist_items_complete_witness :
    ∃ playlist, (getPlaylistFromReply sampleApi sampleDocument).emitted =
        sampleApi.emitted ++ [.playlistReceived playlist] ∧
      playlist.length = 1 ∧
      ∀ item ∈ playlist, ∀ key : PlaylistKey,
        QMap.contains item key = true ∧ QMap.value item key ≠ [] := by
  obtain ⟨playlist, h1, h2⟩ := playlist_items_complete sampleApi sampleDocument
  have hpl : playlist = playlistOfDocument sampleDocument := by
    have h3 : (getPlaylistFromReply sampleApi sampleDocument).emitted =
        sampleApi.emitted ++ [.playlistReceived (playlistOfDocument sampleDocument)] := rfl
    rw [h3] at h1
    simpa using h1.symm
  exact ⟨playlist, h1, by rw [hpl]; decide, h2⟩

/-! ## QString: lemmas -/

theorem prefix_drop_iff (sep l : QString) (p : Nat) (hp : p ≤ l.length) :
    sep <+: l.drop p ↔ ∃ after, l = l.take p ++ sep ++ after := by
  constructor
  · rintro ⟨t, ht⟩
    refine ⟨t, ?_⟩
    rw [List.append_assoc, ht, List.take_append_drop]
  · rintro ⟨t, ht⟩
    refine ⟨t, ?_⟩
    have h := congrArg (List.drop p) ht
    rw [List.append_assoc, List.drop_left' (List.length_take_of_le hp)] at h
    exact h.symm

theorem QString.findStringAux_spec (sep : QString) (l : List Char) (i : Nat) :
    (QString.findStringAux sep l i = -1 ∧ ¬ sep <:+: l) ∨
    (∃ p, QString.findStringAux sep l i = ((i + p : Nat) : Int) ∧ p ≤ l.length ∧
      sep <+: l.drop p ∧ ∀ q < p, ¬ sep <+: l.drop q) := by
  induction l generalizing i with
  | nil =>
    by_cases h : sep = []
    · right
      exact ⟨0, by simp [QString.findStringAux, h], le_refl _, by simp [h], by simp⟩
    · left
      exact ⟨by simp [QString.findStringAux, h], by simpa using h⟩
  | cons c cs ih =>
    by_cases h : sep.isPrefixOf (c :: cs) = true
    · right
      refine ⟨0, by simp [QString.findStringAux, h], Nat.zero_le _, ?_, by simp⟩
      simpa using h
    · have hne : ¬ sep <+: c :: cs := by simpa using h
      have hstep : QString.findStringAux sep (c :: cs) i
          = QString.findStringAux sep cs (i + 1) := by
        rw [QString.findStringAux, if_neg h]
      rcases ih (i + 1) with ⟨h1, h2⟩ | ⟨p, h1, h2, h3, h4⟩
      · left
        refine ⟨by rw [hstep, h1], ?_⟩
        rw [List.infix_cons_iff]
        rintro (h' | h')
        · exact hne h'
        · exact h2 h'
      · right
        refine ⟨p + 1, ?_, by simpa using h2, by simpa using h3, ?_⟩
        · rw [hstep, h1]
          congr 1
          omega
        · intro q hq
          cases q with
          | zero => simpa using hne
          | succ q => simpa using h4 q (by omega)

theorem infix_of_prefix_drop (sep l : QString) (p : Nat) (h : sep <+: l.drop p) : sep <:+: l :=
  List.IsInfix.trans h.isInfix (List.drop_suffix p l).isInfix

theorem QString.contains_iff (s sub : QString) : QString.contains s sub = true ↔ sub <:+: s := by
  unfold QString.contains QString.findString
  simp only [gt_iff_lt, Nat.not_lt_zero, if_false, List.drop_zero, bne_iff_ne, ne_eq]
  rcases QString.findStringAux_spec sub s 0 with ⟨h1, h2⟩ | ⟨p, h1, h2, h3, -⟩
  · simp [h1, h2]
  · have hin := infix_of_prefix_drop sub s p h3
    simp only [hin, iff_true, h1]
    omega

theorem QString.contains_eq_false_iff (s sub : QString) :
    QString.contains s sub = false ↔ ¬ sub <:+: s := by
  rw [← QString.contains_iff]
  simp

theorem QString.mid_rest (s : QString) (start : Nat) (h : start ≤ s.length) :
    QString.mid s start (-1) = s.drop start := by
  unfold QString.mid
  have h1 : ¬ ((start : Int) > (s.length : Int)) := by omega
  have h2 : ¬ ((start : Int) < 0) := by omega
  simp [h1, h2]

theorem QString.mid_take (s : QString) (start n : Nat) (h : start + n ≤ s.length) :
    QString.mid s start n = (s.drop start).take n := by
  unfold QString.mid
  have h1 : ¬ ((start : Int) > (s.length : Int)) := by omega
  have h2 : ¬ ((start : Int) < 0) := by omega
  have h3 : ¬ ((n : Int) < 0 ∨ (n : Int) > (s.length : Int) - (start : Int)) := by omega
  simp only [h1, h2, h3, if_false, Int.toNat_ofNat]

theorem QString.join_cons_of_ne_nil (sep x : QString) (rest : List QString) (h : rest ≠ []) :
    QString.join sep (x :: rest) = x ++ sep ++ QString.join sep rest := by
  cases rest with
  | nil => exact absurd rfl h
  | cons y ys => rfl

/-- What the loop of `split` returns from position `start` on, for a non-empty
separator: fields whose join is the rest of the string, the first of them ending
at the first occurrence of the separator. -/
theorem QString.splitLoop_spec (s sep : QString) (hsep : sep ≠ []) :
    ∀ (fuel start : Nat) (acc : List QString), start ≤ s.length → s.length < fuel + start →
      ∃ parts, QString.splitLoop s sep fuel start acc = acc ++ parts ∧ parts ≠ [] ∧
        QString.join sep parts = s.drop start ∧
        (¬ sep <:+: s.drop start → parts = [s.drop start]) ∧
        (∀ p, sep <+: (s.drop start).drop p → (∀ q < p, ¬ sep <+: (s.drop start).drop q) →
          ∃ rest, parts = (s.drop start).take p :: rest ∧ rest ≠ [] ∧
            QString.join sep rest = (s.drop start).drop (p + sep.length)) := by
  have hlen : sep.length ≠ 0 := by
    intro h
    exact hsep (List.length_eq_zero.mp h)
  intro fuel
  induction fuel with
  | zero =>
    intro start acc h1 h2
    omega
  | succ fuel ih =>
    intro start acc h1 h2
    have hfind : QString.findString s (start + 0) sep
        = QString.findStringAux sep (s.drop start) start := by
      unfold QString.findString
      rw [Nat.add_zero, if_neg (by omega)]
    rcases QString.findStringAux_spec sep (s.drop start) start with
      ⟨e1, e2⟩ | ⟨p, e1, e2, e3, e4⟩
    · refine ⟨[s.drop start], ?_, by simp, rfl, fun _ => rfl, ?_⟩
      · unfold QString.splitLoop
        simp only [hlen, if_false, hfind, e1, if_true, QString.mid_rest s start h1]
      · intro p hp _
        exact absurd (infix_of_prefix_drop sep _ p hp) e2
    · have hp_le : p + sep.length ≤ s.length - start := by
        have := e3.length_le
        simp only [List.length_drop] at this e2
        omega
      obtain ⟨parts, hparts, hne, hjoin, -, -⟩ :=
        ih (start + p + sep.length) (acc ++ [(s.drop start).take p]) (by omega) (by omega)
      have hjoin' : QString.join sep parts = (s.drop start).drop (p + sep.length) := by
        rw [hjoin, List.drop_drop, Nat.add_assoc]
      have hstep : QString.splitLoop s sep (fuel + 1) start acc
          = acc ++ ((s.drop start).take p :: parts) := by
        rw [QString.splitLoop]
        simp only [hlen, if_false, hfind, e1]
        have hne1 : ¬ (((start + p : Nat) : Int) = -1) := by omega
        rw [if_neg hne1]
        have hsub : ((start + p : Nat) : Int) - (start : Int) = ((p : Nat) : Int) := by omega
        rw [hsub, QString.mid_take s start p (by omega), Int.toNat_ofNat, hparts]
        simp
      have hwhole : (s.drop start).take p ++ sep ++ (s.drop start).drop (p + sep.length)
          = s.drop start := by
        obtain ⟨t, ht⟩ := e3
        have hdrop : (s.drop start).drop (p + sep.length) = t := by
          rw [← List.drop_drop, ← ht, List.drop_left]
        rw [hdrop, List.append_assoc, ht, List.take_append_drop]
      refine ⟨(s.drop start).take p :: parts, hstep, by simp, ?_, ?_, ?_⟩
      · rw [QString.join_cons_of_ne_nil _ _ _ hne, hjoin', hwhole]
      · intro hno
        exact absurd (infix_of_prefix_drop sep _ p e3) hno
      · intro p' hp' hmin'
        have hpp : p' = p := by
          rcases Nat.lt_trichotomy p' p with hlt | heq | hgt
          · exact absurd hp' (e4 p' hlt)
          · exact heq
          · exact absurd e3 (hmin' p hgt)
        subst hpp
        exact ⟨parts, rfl, hne, hjoin'⟩

theorem QString.split_spec (s sep : QString) (hsep : sep ≠ []) :
    (¬ sep <:+: s ∧ QString.split s sep = [s]) ∨
    (∃ before after rest, IsFirstOccurrence sep s before after ∧
      QString.split s sep = before :: rest ∧ rest ≠ [] ∧ QString.join sep rest = after) := by
  obtain ⟨parts, hparts, -, -, hnone, hfirst⟩ :=
    QString.splitLoop_spec s sep hsep (s.length + 1) 0 [] (Nat.zero_le _) (by omega)
  simp only [List.nil_append, List.drop_zero] at hparts hnone hfirst
  rcases QString.findStringAux_spec sep s 0 with ⟨-, h2⟩ | ⟨p, -, h2, h3, h4⟩
  · left
    exact ⟨h2, by rw [QString.split, hparts, hnone h2]⟩
  · right
    obtain ⟨rest, hrest, hne, hjoin⟩ := hfirst p h3 h4
    obtain ⟨after, hafter⟩ := (prefix_drop_iff sep s p h2).mp h3
    have hdrop : s.drop (p + sep.length) = after := by
      have h := congrArg (List.drop (p + sep.length)) hafter
      rw [h]
      exact List.drop_left' (by simp [List.length_take_of_le h2])
    refine ⟨s.take p, after, rest, ⟨hafter, ?_⟩, by rw [QString.split, hparts, hrest], hne,
      by rw [hjoin, hdrop]⟩
    intro before' after' h'
    by_contra hlt
    have hq : before'.length < p := by
      simp only [List.length_take_of_le h2] at hlt
      omega
    apply h4 before'.length hq
    refine ⟨after', ?_⟩
    have h := congrArg (List.drop before'.length) h'
    rw [List.append_assoc, List.drop_left] at h
    exact h.symm

theorem IsFirstOccurrence.unique {sep s b₁ a₁ b₂ a₂ : QString}
    (h₁ : IsFirstOccurrence sep s b₁ a₁) (h₂ : IsFirstOccurrence sep s b₂ a₂) :
    b₁ = b₂ ∧ a₁ = a₂ := by
  have hlen : b₁.length = b₂.length :=
    Nat.le_antisymm (h₁.2 b₂ a₂ h₂.1) (h₂.2 b₁ a₁ h₁.1)
  have heq : b₁ ++ (sep ++ a₁) = b₂ ++ (sep ++ a₂) := by
    rw [← List.append_assoc, ← List.append_assoc, ← h₁.1, ← h₂.1]
  obtain ⟨hb, hrest⟩ := List.append_inj heq hlen
  exact ⟨hb, List.append_cancel_left hrest⟩

/-- The call `section(sep, 1)` is the text after the first occurrence of a non-empty
separator, and empty when the separator does not occur. -/
theorem QString.section_one (s sep : QString) (hsep : sep ≠ []) :
    (¬ sep <:+: s ∧ QString.«section» s sep 1 (-1) = []) ∨
    (∃ before, IsFirstOccurrence sep s before (QString.«section» s sep 1 (-1))) := by
  rcases QString.split_spec s sep hsep with ⟨h1, h2⟩ | ⟨before, after, rest, h1, h2, h3, h4⟩
  · left
    refine ⟨h1, ?_⟩
    simp [QString.«section», h2]
  · right
    refine ⟨before, ?_⟩
    have hlen : 0 < rest.length := List.length_pos.mpr h3
    have hsec : QString.«section» s sep 1 (-1) = after := by
      unfold QString.«section»
      simp only [h2, List.length_cons]
      have c1 : ¬ ((1 : Int) < 0) := by omega
      have c2 : ((-1 : Int) < 0) := by omega
      have c3 : ¬ ((1 : Int) ≥ ((rest.length + 1 : Nat) : Int) ∨
          (-1 : Int) + ((rest.length + 1 : Nat) : Int) < 0 ∨
          (1 : Int) > -1 + ((rest.length + 1 : Nat) : Int)) := by
        omega
      simp only [c1, c2, if_true, if_false, c3]
      have c4 : ((-1 : Int) + ((rest.length + 1 : Nat) : Int) - 1 + 1).toNat = rest.length := by
        omega
      rw [c4]
      simp [h4]
    rw [hsec]
    exact h1

/-! ## Token extraction: the failure path -/

theorem error_description_sep_ne_nil : "error_description=".toList ≠ [] := by decide

theorem getTokensFromUrl_of_error (api : ApiComponent) (urlString : QString)
    (h : "error".toList <:+: urlString) :
    getTokensFromUrl api urlString =
      { api with emitted := api.emitted ++ [.authorizeFinished false
          (QString.«section» urlString "error_description=".toList 1 (-1))] } := by
  have hc := (QString.contains_iff urlString "error".toList).mpr h
  simp only [getTokensFromUrl, hc, if_true, ApiComponent.emit]

/-- C7: a URL containing `error` makes `getTokensFromUrl` emit exactly one
signal, `authorizeFinished(false, m)`, where `m` is the text after the first
occurrence of `error_description=` (empty when it does not occur); this also
holds when the URL contains `access_token`; the stored tokens (and the genre
map) are left as they were, and no success signal is emitted. -/
theorem getTokensFromUrl_error_precedence (api : ApiComponent) (urlString : QString)
    (h : "error".toList <:+: urlString) :
    ∃ m, getTokensFromUrl api urlString =
        { api with emitted := api.emitted ++ [.authorizeFinished false m] } ∧
      (getTokensFromUrl api urlString).tokens_ = api.tokens_ ∧
      (getTokensFromUrl api urlString).emitted = api.emitted ++ [.authorizeFinished false m] ∧
      ((¬ "error_description=".toList <:+: urlString ∧ m = []) ∨
        (∃ before, IsFirstOccurrence "error_description=".toList urlString before m)) := by
  refine ⟨QString.«section» urlString "error_description=".toList 1 (-1),
    getTokensFromUrl_of_error api urlString h, ?_, ?_,
    QString.section_one urlString _ error_description_sep_ne_nil⟩
  · rw [getTokensFromUrl_of_error api urlString h]
  · rw [getTokensFromUrl_of_error api urlString h]

/-- C7 at a redirect that carries both an error and an `access_token`. -/
theorem getTokensFromUrl_error_precedence_witness :
    "error".toList <:+: sampleErrorUrl ∧
    ∃ m, getTokensFromUrl sampleApi sampleErrorUrl =
        { sampleApi with emitted := sampleApi.emitted ++ [.authorizeFinished false m] } ∧
      (getTokensFromUrl sampleApi sampleErrorUrl).tokens_ = sampleApi.tokens_ ∧
      (getTokensFromUrl sampleApi sampleErrorUrl).emitted =
        sampleApi.emitted ++ [.authorizeFinished false m] ∧
      ((¬ "error_description=".toList <:+: sampleErrorUrl ∧ m = []) ∨
        (∃ before, IsFirstOccurrence "error_description=".toList sampleErrorUrl before m)) :=
  ⟨⟨"https://oauth.vk.com/blank.html#".toList,
      "=access_denied&error_description=denied&access_token=x".toList, by decide⟩,
    getTokensFromUrl_error_precedence sampleApi sampleErrorUrl
      ⟨"https://oauth.vk.com/blank.html#".toList,
        "=access_denied&error_description=denied&access_token=x".toList, by decide⟩⟩

theorem isFirstOccurrence_of_not_infix (sep before after : QString)
    (hborder : ∀ k, 0 < k → k < sep.length → ¬ (sep.drop k <+: sep))
    (hP : ¬ sep <:+: before) :
    IsFirstOccurrence sep (before ++ sep ++ after) before after := by
  refine ⟨rfl, ?_⟩
  intro b' a' h
  by_contra hlt
  have hlt' : b'.length < before.length := by omega
  rw [List.append_assoc, List.append_assoc, List.append_eq_append_iff] at h
  rcases h with ⟨x, hx, -⟩ | ⟨c, hc, hrest⟩
  · have := congrArg List.length hx
    simp only [List.length_append] at this
    omega
  · have hcpos : 0 < c.length := by
      have := congrArg List.length hc
      simp only [List.length_append] at this
      omega
    rw [List.append_eq_append_iff] at hrest
    rcases hrest with ⟨x, hx, -⟩ | ⟨d, hd, hrest'⟩
    · -- the separator ends inside `c`
      apply hP
      rw [hc, hx]
      exact ⟨b', x, by simp⟩
    · -- `c` is a proper prefix of the separator, `d` the rest of it
      have hdlen : sep.length = c.length + d.length := by
        have := congrArg List.length hd
        simpa using this
      have hdrop : sep.drop c.length = d := by
        rw [hd, List.drop_left]
      have hdpre : d <+: sep := by
        have h1 : d <+: sep ++ after := ⟨a', hrest'.symm⟩
        have h2 : sep <+: sep ++ after := List.prefix_append _ _
        exact List.prefix_of_prefix_length_le h1 h2 (by omega)
      by_cases hk : c.length < sep.length
      · exact hborder c.length hcpos hk (hdrop ▸ hdpre)
      · have hd0 : d = [] := List.length_eq_zero.mp (by omega)
        apply hP
        rw [hc, hd, hd0, List.append_nil]
        exact List.suffix_append _ _ |>.isInfix

theorem error_description_sep_no_border :
    ∀ k, 0 < k → k < "error_description=".toList.length →
      ¬ ("error_description=".toList.drop k <+: "error_description=".toList) := by
  have h : ∀ k, k < 18 → 0 < k → k < "error_description=".toList.length →
      ("error_description=".toList.drop k).isPrefixOf "error_description=".toList = false := by
    decide
  intro k hk0 hk hpre
  have hlen : "error_description=".toList.length = 18 := by decide
  have := h k (by omega) hk0 hk
  rw [← Bool.not_eq_true, List.isPrefixOf_iff_prefix] at this
  exact this hpre

theorem error_infix_of_error_description (before after : QString) :
    "error".toList <:+: before ++ "error_description=".toList ++ after :=
  ⟨before, "_description=".toList ++ after, by simp only [List.append_assoc]; rfl⟩

/-- C2 as amended: when the URL is `before ++ "error_description=" ++ M` and
`before` does not contain `error_description=`, so that `M` is all the text
after the first occurrence, `getTokensFromUrl` emits `authorizeFinished(false,
M)`, and nothing else. -/
theorem getTokensFromUrl_error_description (api : ApiComponent) (before M : QString)
    (hbefore : ¬ "error_description=".toList <:+: before) :
    getTokensFromUrl api (before ++ "error_description=".toList ++ M) =
      { api with emitted := api.emitted ++ [.authorizeFinished false M] } := by
  rw [getTokensFromUrl_of_error api _ (error_infix_of_error_description before M)]
  have hfirst := isFirstOccurrence_of_not_infix "error_description=".toList before M
    error_description_sep_no_border hbefore
  rcases QString.section_one (before ++ "error_description=".toList ++ M)
    "error_description=".toList error_description_sep_ne_nil with ⟨hno, -⟩ | ⟨b, hb⟩
  · exact absurd ⟨before, M, rfl⟩ hno
  · rw [(IsFirstOccurrence.unique hb hfirst).2]

/-- C2 as amended, at the redirect of a denied authorization. -/
theorem getTokensFromUrl_error_description_witness :
    ¬ "error_description=".toList <:+:
        "https://oauth.vk.com/blank.html#error=access_denied&".toList ∧
    getTokensFromUrl sampleApi
      ("https://oauth.vk.com/blank.html#error=access_denied&".toList
        ++ "error_description=".toList ++ "denied".toList) =
      { sampleApi with
        emitted := sampleApi.emitted ++ [.authorizeFinished false "denied".toList] } :=
  ⟨by rw [← QString.contains_eq_false_iff]; decide,
   getTokensFromUrl_error_description sampleApi _ _
     (by rw [← QString.contains_eq_false_iff]; decide)⟩

/-- C2 as stated fails: `sampleErrorUrlWithState` contains
`error_description=denied`, and the message emitted is `denied&state=7`; in
`sampleErrorUrlTwice`, which contains `error_description=b`, the message starts
after the first occurrence and is `a&error_description=b`. -/
theorem getTokensFromUrl_error_description_not_exact :
    ¬ (∀ (api : ApiComponent) (M urlString : QString),
        ("error_description=".toList ++ M) <:+: urlString →
        (getTokensFromUrl api urlString).emitted =
          api.emitted ++ [.authorizeFinished false M]) ∧
    (getTokensFromUrl sampleApi sampleErrorUrlWithState).emitted =
      [.authorizeFinished false "denied&state=7".toList] ∧
    (getTokensFromUrl sampleApi sampleErrorUrlTwice).emitted =
      [.authorizeFinished false "a&error_description=b".toList] := by
  have h2 : (getTokensFromUrl sampleApi sampleErrorUrlWithState).emitted
      = [.authorizeFinished false "denied&state=7".toList] := by decide
  refine ⟨?_, h2, by decide⟩
  intro h
  have h1 := h sampleApi "denied".toList sampleErrorUrlWithState
    ⟨"https://oauth.vk.com/blank.html#error=access_denied&".toList, "&state=7".toList,
      by decide⟩
  rw [h2] at h1
  exact absurd h1 (by decide)

/-! ## Token extraction: the success path -/

theorem QString.findChar_skip (ch : Char) (seg rest : List Char) (i : Nat) (h : ch ∉ seg) :
    QString.findChar ch (seg ++ ch :: rest) i = ((i + seg.length : Nat) : Int) := by
  induction seg generalizing i with
  | nil => simp [QString.findChar]
  | cons c cs ih =>
    have hc : c ≠ ch := fun hEq => h (by simp [hEq])
    have hcs : ch ∉ cs := fun hm => h (List.mem_cons_of_mem _ hm)
    rw [List.cons_append, QString.findChar, if_neg hc, ih (i + 1) hcs]
    congr 1
    simp only [List.length_cons]
    omega

/-- A call of `indexOf` from the end of `pre` finds the first `ch` after a segment free of
`ch`. -/
theorem QString.indexOf_at (s pre seg rest : QString) (ch : Char) (h : ch ∉ seg)
    (hs : s = pre ++ seg ++ ch :: rest) (start : Int) (hstart : start = (pre.length : Int)) :
    QString.indexOf s ch start = start + (seg.length : Int) := by
  subst hstart
  unfold QString.indexOf
  have hlen : s.length = pre.length + seg.length + (rest.length + 1) := by
    rw [hs]; simp; omega
  have h1 : ¬ ((pre.length : Int) < 0) := by omega
  have h2 : (pre.length : Int) < (s.length : Int) := by omega
  have hdrop : s.drop pre.length = seg ++ ch :: rest := by
    rw [hs, List.append_assoc, List.drop_left]
  simp only [h1, if_false, h2, if_true, Int.toNat_ofNat, hdrop,
    QString.findChar_skip ch seg rest _ h]
  omega

theorem QString.mid_at (s pre x post : QString) (hs : s = pre ++ x ++ post) (pos n : Int)
    (hpos : pos = (pre.length : Int)) (hn : n = (x.length : Int)) : QString.mid s pos n = x := by
  subst hpos hn
  have hlen : s.length = pre.length + x.length + post.length := by
    rw [hs]; simp; omega
  rw [QString.mid_take s pre.length x.length (by omega), hs, List.append_assoc, List.drop_left,
    List.take_left]

theorem QString.mid_at_rest (s pre x : QString) (hs : s = pre ++ x) (pos : Int)
    (hpos : pos = (pre.length : Int)) : QString.mid s pos (-1) = x := by
  subst hpos
  have hlen : s.length = pre.length + x.length := by
    rw [hs]; simp
  rw [QString.mid_rest s pre.length (by omega), hs, List.drop_left]

/-- Positional extraction: on a URL of the shape `A=T&B=E&C=U` that passes the
two `contains` tests, `getTokensFromUrl` stores `T`, `E` and `U`. -/
theorem getTokensFromUrl_positional (api : ApiComponent) (A T B E C U : QString)
    (hA1 : '=' ∉ A) (hA2 : '&' ∉ A) (hT1 : '=' ∉ T) (hT2 : '&' ∉ T)
    (hB1 : '=' ∉ B) (hB2 : '&' ∉ B) (hE1 : '=' ∉ E) (hE2 : '&' ∉ E) (hC1 : '=' ∉ C)
    (herror : ¬ "error".toList <:+: A ++ '=' :: T ++ '&' :: B ++ '=' :: E ++ '&' :: C ++ '=' :: U)
    (haccess : "access_token".toList <:+:
      A ++ '=' :: T ++ '&' :: B ++ '=' :: E ++ '&' :: C ++ '=' :: U) :
    getTokensFromUrl api (A ++ '=' :: T ++ '&' :: B ++ '=' :: E ++ '&' :: C ++ '=' :: U) =
      { api with
        tokens_ := ((api.tokens_.insert AccessToken T).insert ExpiresIn E).insert UserId U
        emitted := api.emitted ++ [.authorizeFinished true []] } := by
  generalize hurl : A ++ '=' :: T ++ '&' :: B ++ '=' :: E ++ '&' :: C ++ '=' :: U = url
    at herror haccess
  have hne : ('=' : Char) ≠ '&' := by decide
  have hne' : ('&' : Char) ≠ '=' := by decide
  have c1 := (QString.contains_eq_false_iff url "error".toList).mpr herror
  have c2 := (QString.contains_iff url "access_token".toList).mpr haccess
  -- positions of the delimiters
  have i1 : QString.indexOf url '=' 0 = (A.length : Int) := by
    have := QString.indexOf_at url [] A (T ++ '&' :: B ++ '=' :: E ++ '&' :: C ++ '=' :: U) '='
      hA1 (by rw [← hurl]; simp) 0 (by simp)
    simpa using this
  have i2 : QString.indexOf url '=' ((A.length : Int) + 1)
      = (A.length : Int) + 1 + ((T ++ '&' :: B).length : Int) := by
    exact QString.indexOf_at url (A ++ ['=']) (T ++ '&' :: B) (E ++ '&' :: C ++ '=' :: U) '='
      (by simp [hT1, hB1, hne]) (by rw [← hurl]; simp) _ (by simp)
  have i3 : QString.indexOf url '=' ((A.length : Int) + 1 + ((T ++ '&' :: B).length : Int) + 1)
      = (A.length : Int) + 1 + ((T ++ '&' :: B).length : Int) + 1
          + ((E ++ '&' :: C).length : Int) := by
    exact QString.indexOf_at url (A ++ '=' :: T ++ '&' :: B ++ ['=']) (E ++ '&' :: C) U '='
      (by simp [hE1, hC1, hne]) (by rw [← hurl]; simp) _ (by simp; omega)
  have j1 : QString.indexOf url '&' 0 = ((A ++ '=' :: T).length : Int) := by
    have := QString.indexOf_at url [] (A ++ '=' :: T) (B ++ '=' :: E ++ '&' :: C ++ '=' :: U) '&'
      (by simp [hA2, hT2, hne']) (by rw [← hurl]; simp) 0 (by simp)
    simpa using this
  have j2 : QString.indexOf url '&' (((A ++ '=' :: T).length : Int) + 1)
      = ((A ++ '=' :: T).length : Int) + 1 + ((B ++ '=' :: E).length : Int) := by
    exact QString.indexOf_at url (A ++ '=' :: T ++ ['&']) (B ++ '=' :: E) (C ++ '=' :: U) '&'
      (by simp [hB2, hE2, hne']) (by rw [← hurl]; simp) _ (by simp; omega)
  -- the three extracted texts
  have m1 : QString.mid url ((A.length : Int) + 1)
      (((A ++ '=' :: T).length : Int) + 1 - ((A.length : Int) + 1) - 1) = T := by
    exact QString.mid_at url (A ++ ['=']) T ('&' :: B ++ '=' :: E ++ '&' :: C ++ '=' :: U)
      (by rw [← hurl]; simp) _ _ (by simp) (by simp)
  have m2 : QString.mid url ((A.length : Int) + 1 + ((T ++ '&' :: B).length : Int) + 1)
      (((A ++ '=' :: T).length : Int) + 1 + ((B ++ '=' :: E).length : Int) + 1
        - ((A.length : Int) + 1 + ((T ++ '&' :: B).length : Int) + 1) - 1) = E := by
    exact QString.mid_at url (A ++ '=' :: T ++ '&' :: B ++ ['=']) E ('&' :: C ++ '=' :: U)
      (by rw [← hurl]; simp) _ _ (by simp; omega) (by simp; omega)
  have m3 : QString.mid url ((A.length : Int) + 1 + ((T ++ '&' :: B).length : Int) + 1
      + ((E ++ '&' :: C).length : Int) + 1) (-1) = U := by
    exact QString.mid_at_rest url (A ++ '=' :: T ++ '&' :: B ++ '=' :: E ++ '&' :: C ++ ['=']) U
      (by rw [← hurl]; simp) _ (by simp; omega)
  simp only [getTokensFromUrl, c1, c2, Bool.false_eq_true, if_false, if_true, i1, i2, i3, j1, j2,
    m1, m2, m3, ApiComponent.emit]

theorem value_of_three_inserts (t : OAuthTokensMap) (a e u : QString) :
    QMap.value (((t.insert AccessToken a).insert ExpiresIn e).insert UserId u) AccessToken = a ∧
    QMap.value (((t.insert AccessToken a).insert ExpiresIn e).insert UserId u) ExpiresIn = e ∧
    QMap.value (((t.insert AccessToken a).insert ExpiresIn e).insert UserId u) UserId = u := by
  refine ⟨?_, ?_, ?_⟩
  · rw [QMap.value_insert_of_ne _ UserId AccessToken _ (by decide),
      QMap.value_insert_of_ne _ ExpiresIn AccessToken _ (by decide), QMap.value_insert_self]
  · rw [QMap.value_insert_of_ne _ UserId ExpiresIn _ (by decide), QMap.value_insert_self]
  · rw [QMap.value_insert_self]

/-- C8: `getTokensFromUrl` extracts by position. On a URL `A=T&B=E&C=U` (with
`A`, `T`, `B`, `E`, `C` free of `=` and `&`) that contains `access_token` and
not `error`, it stores `T` as `AccessToken`, `E` as `ExpiresIn` and `U` as
`UserId`, whatever the keys `A`, `B`, `C` are, and emits `authorizeFinished(true,
"")`. So with the parameters in the order user_id, access_token, expires_in the
values land under the wrong keys. -/
theorem getTokensFromUrl_extracts_positionally (api : ApiComponent) (A T B E C U : QString)
    (hA : '=' ∉ A ∧ '&' ∉ A) (hT : '=' ∉ T ∧ '&' ∉ T) (hB : '=' ∉ B ∧ '&' ∉ B)
    (hE : '=' ∉ E ∧ '&' ∉ E) (hC : '=' ∉ C ∧ '&' ∉ C)
    (haccess : "access_token".toList <:+:
      A ++ "=".toList ++ T ++ "&".toList ++ B ++ "=".toList ++ E ++ "&".toList ++ C
        ++ "=".toList ++ U)
    (herror : ¬ "error".toList <:+:
      A ++ "=".toList ++ T ++ "&".toList ++ B ++ "=".toList ++ E ++ "&".toList ++ C
        ++ "=".toList ++ U) :
    (QMap.value (getTokensFromUrl api
        (A ++ "=".toList ++ T ++ "&".toList ++ B ++ "=".toList ++ E ++ "&".toList ++ C
          ++ "=".toList ++ U)).tokens_ AccessToken = T ∧
      QMap.value (getTokensFromUrl api
        (A ++ "=".toList ++ T ++ "&".toList ++ B ++ "=".toList ++ E ++ "&".toList ++ C
          ++ "=".toList ++ U)).tokens_ ExpiresIn = E ∧
      QMap.value (getTokensFromUrl api
        (A ++ "=".toList ++ T ++ "&".toList ++ B ++ "=".toList ++ E ++ "&".toList ++ C
          ++ "=".toList ++ U)).tokens_ UserId = U ∧
      (getTokensFromUrl api
        (A ++ "=".toList ++ T ++ "&".toList ++ B ++ "=".toList ++ E ++ "&".toList ++ C
          ++ "=".toList ++ U)).emitted = api.emitted ++ [.authorizeFinished true []]) ∧
    (getTokensFromUrl sampleApi sampleRedirectReordered).tokens_
      = [(AccessToken, "42".toList), (ExpiresIn, "abc".toList), (UserId, "86400".toList)] := by
  have e1 : "=".toList = ['='] := rfl
  have e2 : "&".toList = ['&'] := rfl
  have hshape : A ++ "=".toList ++ T ++ "&".toList ++ B ++ "=".toList ++ E ++ "&".toList ++ C
      ++ "=".toList ++ U = A ++ '=' :: T ++ '&' :: B ++ '=' :: E ++ '&' :: C ++ '=' :: U := by
    simp [e1, e2]
  rw [hshape] at haccess herror ⊢
  rw [getTokensFromUrl_positional api A T B E C U hA.1 hA.2 hT.1 hT.2 hB.1 hB.2 hE.1 hE.2 hC.1
    herror haccess]
  obtain ⟨v1, v2, v3⟩ := value_of_three_inserts api.tokens_ T E U
  exact ⟨⟨v1, v2, v3, rfl⟩, by decide⟩

/-- C8 on the redirect `…#access_token=abc&expires_in=86400&user_id=42`. -/
theorem getTokensFromUrl_extracts_positionally_witness :
    QMap.value (getTokensFromUrl sampleApi
        ("https://oauth.vk.com/blank.html#access_token".toList ++ "=".toList ++ "abc".toList
          ++ "&".toList ++ "expires_in".toList ++ "=".toList ++ "86400".toList ++ "&".toList
          ++ "user_id".toList ++ "=".toList ++ "42".toList)).tokens_ AccessToken = "abc".toList ∧
      QMap.value (getTokensFromUrl sampleApi
        ("https://oauth.vk.com/blank.html#access_token".toList ++ "=".toList ++ "abc".toList
          ++ "&".toList ++ "expires_in".toList ++ "=".toList ++ "86400".toList ++ "&".toList
          ++ "user_id".toList ++ "=".toList ++ "42".toList)).tokens_ ExpiresIn = "86400".toList ∧
      QMap.value (getTokensFromUrl sampleApi
        ("https://oauth.vk.com/blank.html#access_token".toList ++ "=".toList ++ "abc".toList
          ++ "&".toList ++ "expires_in".toList ++ "=".toList ++ "86400".toList ++ "&".toList
          ++ "user_id".toList ++ "=".toList ++ "42".toList)).tokens_ UserId = "42".toList ∧
      (getTokensFromUrl sampleApi
        ("https://oauth.vk.com/blank.html#access_token".toList ++ "=".toList ++ "abc".toList
          ++ "&".toList ++ "expires_in".toList ++ "=".toList ++ "86400".toList ++ "&".toList
          ++ "user_id".toList ++ "=".toList ++ "42".toList)).emitted
        = sampleApi.emitted ++ [.authorizeFinished true []] :=
  (getTokensFromUrl_extracts_positionally sampleApi
    "https://oauth.vk.com/blank.html#access_token".toList "abc".toList "expires_in".toList
    "86400".toList "user_id".toList "42".toList (by decide) (by decide) (by decide) (by decide)
    (by decide) ⟨"https://oauth.vk.com/blank.html#".toList,
      "=abc&expires_in=86400&user_id=42".toList, by decide⟩
    (by rw [← QString.contains_eq_false_iff]; decide)).1

/-! ## Token extraction: the redirect of a successful authorization -/

/-- C1 as amended: when the URL is `P ++ "access_token=" ++ T ++ "&expires_in="
++ E ++ "&user_id=" ++ U` with `P`, `T`, `E`, `U` free of `=` and `&`, and does
not contain `error`, `getTokensFromUrl` stores `T`, `E`, `U` under
`AccessToken`, `ExpiresIn`, `UserId` and emits `authorizeFinished(true, "")`. -/
theorem getTokensFromUrl_redirect (api : ApiComponent) (P T E U : QString)
    (hP : '=' ∉ P ∧ '&' ∉ P) (hT : '=' ∉ T ∧ '&' ∉ T) (hE : '=' ∉ E ∧ '&' ∉ E)
    (_hU : '=' ∉ U ∧ '&' ∉ U)
    (herror : ¬ "error".toList <:+:
      P ++ "access_token=".toList ++ T ++ "&expires_in=".toList ++ E ++ "&user_id=".toList ++ U) :
    QMap.value (getTokensFromUrl api
        (P ++ "access_token=".toList ++ T ++ "&expires_in=".toList ++ E ++ "&user_id=".toList
          ++ U)).tokens_ AccessToken = T ∧
      QMap.value (getTokensFromUrl api
        (P ++ "access_token=".toList ++ T ++ "&expires_in=".toList ++ E ++ "&user_id=".toList
          ++ U)).tokens_ ExpiresIn = E ∧
      QMap.value (getTokensFromUrl api
        (P ++ "access_token=".toList ++ T ++ "&expires_in=".toList ++ E ++ "&user_id=".toList
          ++ U)).tokens_ UserId = U ∧
      (getTokensFromUrl api
        (P ++ "access_token=".toList ++ T ++ "&expires_in=".toList ++ E ++ "&user_id=".toList
          ++ U)).emitted = api.emitted ++ [.authorizeFinished true []] := by
  have e1 : "access_token=".toList = "access_token".toList ++ ['='] := rfl
  have e2 : "&expires_in=".toList = '&' :: "expires_in".toList ++ ['='] := rfl
  have e3 : "&user_id=".toList = '&' :: "user_id".toList ++ ['='] := rfl
  have hshape : P ++ "access_token=".toList ++ T ++ "&expires_in=".toList ++ E
      ++ "&user_id=".toList ++ U
      = (P ++ "access_token".toList) ++ '=' :: T ++ '&' :: "expires_in".toList ++ '=' :: E
          ++ '&' :: "user_id".toList ++ '=' :: U := by
    rw [e1, e2, e3]
    simp
  rw [hshape] at herror ⊢
  have haccess : "access_token".toList <:+: (P ++ "access_token".toList) ++ '=' :: T
      ++ '&' :: "expires_in".toList ++ '=' :: E ++ '&' :: "user_id".toList ++ '=' :: U :=
    ⟨P, '=' :: T ++ '&' :: "expires_in".toList ++ '=' :: E ++ '&' :: "user_id".toList ++ '=' :: U,
      by simp⟩
  have k1 : '=' ∉ "access_token".toList := by decide
  have k2 : '&' ∉ "access_token".toList := by decide
  rw [getTokensFromUrl_positional api (P ++ "access_token".toList) T "expires_in".toList E
    "user_id".toList U (by simp [hP.1, k1]) (by simp [hP.2, k2]) hT.1 hT.2 (by decide) (by decide)
    hE.1 hE.2 (by decide) herror haccess]
  obtain ⟨v1, v2, v3⟩ := value_of_three_inserts api.tokens_ T E U
  exact ⟨v1, v2, v3, rfl⟩

/-- C1 as amended, on the redirect `…#access_token=abc&expires_in=86400&user_id=42`. -/
theorem getTokensFromUrl_redirect_witness :
    QMap.value (getTokensFromUrl sampleApi
        ("https://oauth.vk.com/blank.html#".toList ++ "access_token=".toList ++ "abc".toList
          ++ "&expires_in=".toList ++ "86400".toList ++ "&user_id=".toList
          ++ "42".toList)).tokens_ AccessToken = "abc".toList ∧
      QMap.value (getTokensFromUrl sampleApi
        ("https://oauth.vk.com/blank.html#".toList ++ "access_token=".toList ++ "abc".toList
          ++ "&expires_in=".toList ++ "86400".toList ++ "&user_id=".toList
          ++ "42".toList)).tokens_ ExpiresIn = "86400".toList ∧
      QMap.value (getTokensFromUrl sampleApi
        ("https://oauth.vk.com/blank.html#".toList ++ "access_token=".toList ++ "abc".toList
          ++ "&expires_in=".toList ++ "86400".toList ++ "&user_id=".toList
          ++ "42".toList)).tokens_ UserId = "42".toList ∧
      (getTokensFromUrl sampleApi
        ("https://oauth.vk.com/blank.html#".toList ++ "access_token=".toList ++ "abc".toList
          ++ "&expires_in=".toList ++ "86400".toList ++ "&user_id=".toList
          ++ "42".toList)).emitted = sampleApi.emitted ++ [.authorizeFinished true []] :=
  getTokensFromUrl_redirect sampleApi "https://oauth.vk.com/blank.html#".toList "abc".toList
    "86400".toList "42".toList (by decide) (by decide) (by decide) (by decide)
    (by rw [← QString.contains_eq_false_iff]; decide)

/-- C1 as stated fails: `sampleRedirectWithQuery` contains
`access_token=abc&expires_in=86400&user_id=42` and not `error`, and the text
stored as `AccessToken` is `1#access_token=abc`, not `abc`; in
`sampleRedirectWithTrailer`, which contains the same text, the text stored as
`UserId` runs to the end of the URL and is `42&state=1`. -/
theorem getTokensFromUrl_redirect_not_anywhere :
    ¬ (∀ (api : ApiComponent) (T E U urlString : QString),
        ('=' ∉ T ∧ '&' ∉ T) → ('=' ∉ E ∧ '&' ∉ E) → ('=' ∉ U ∧ '&' ∉ U) →
        ("access_token=".toList ++ T ++ "&expires_in=".toList ++ E ++ "&user_id=".toList ++ U)
          <:+: urlString →
        ¬ "error".toList <:+: urlString →
        QMap.value (getTokensFromUrl api urlString).tokens_ AccessToken = T ∧
        QMap.value (getTokensFromUrl api urlString).tokens_ ExpiresIn = E ∧
        QMap.value (getTokensFromUrl api urlString).tokens_ UserId = U ∧
        (getTokensFromUrl api urlString).emitted =
          api.emitted ++ [.authorizeFinished true []]) ∧
    QMap.value (getTokensFromUrl sampleApi sampleRedirectWithQuery).tokens_ AccessToken
      = "1#access_token=abc".toList ∧
    QMap.value (getTokensFromUrl sampleApi sampleRedirectWithTrailer).tokens_ UserId
      = "42&state=1".toList := by
  have h2 : QMap.value (getTokensFromUrl sampleApi sampleRedirectWithQuery).tokens_ AccessToken
      = "1#access_token=abc".toList := by decide
  refine ⟨?_, h2, by decide⟩
  intro h
  have h1 := (h sampleApi "abc".toList "86400".toList "42".toList sampleRedirectWithQuery
    (by decide) (by decide) (by decide)
    ⟨"https://oauth.vk.com/blank.html?state=1#".toList, [], by decide⟩
    (by rw [← QString.contains_eq_false_iff]; decide)).1
  rw [h2] at h1
  exact absurd h1 (by decide)

end Flow
